import Mathlib

/-!
Shallow embedding of the `chess-engine-harmon` chess engine (Rust) in Lean 4.

The definitions below translate, method by method, the source files
`src/position.rs`, `src/piece.rs`, `src/square.rs`, `src/lib.rs` (the
`Color` and `Move` types) and `src/board/{mod,castling_rights,types}.rs`.

Modelling conventions:
- `i32` board coordinates become `Int` (all arithmetic is far from overflow);
- `f64` evaluation scores become `ℚ` (every score in the engine is a finite
  sum of multiples of 0.5 of magnitude well below 2^52, on which `f64`
  arithmetic is exact, so `ℚ` is a faithful model);
- the `[Square; 64]` array becomes a `List Square` read with `List.getD`
  and written with `List.set` at the Rust index `(7 - row) * 8 + col`;
- Rust functions that can `panic!` on caller-contract violations
  (`play_move`, `promote`) return `Option`, `none` marking the panic;
- loops with early `return` become folds carrying a stop flag or
  explicit structural recursion, preserving the computed value.
-/

-- Allow the kernel-checked evaluation (`decide`) of concrete rational
-- scores: these Batteries definitions are sealed by default.
attribute [local semireducible] Rat.add Rat.sub Rat.mul Rat.inv Rat.ofScientific

-- # Color (src/lib.rs)

inductive Color where
  | White : Color
  | Black : Color
deriving DecidableEq

/-- The `Not` implementation for `Color` in `src/lib.rs`. -/
def Color.not : Color → Color
  | .White => .Black
  | .Black => .White

@[match_pattern] def WHITE : Color := Color.White
@[match_pattern] def BLACK : Color := Color.Black

-- # Position (src/position.rs)

structure Position where
  row : Int
  col : Int
deriving DecidableEq

namespace Position

def new (row col : Int) : Position := ⟨row, col⟩

def get_row (p : Position) : Int := p.row

def get_col (p : Position) : Int := p.col

def king_pos : Color → Position
  | WHITE => new 0 4
  | BLACK => new 7 4

def queen_pos : Color → Position
  | WHITE => new 0 3
  | BLACK => new 7 3

def is_off_board (p : Position) : Bool :=
  p.row < 0 || p.row > 7 || p.col < 0 || p.col > 7

def is_on_board (p : Position) : Bool :=
  !p.is_off_board

def add_row (p : Position) (drow : Int) : Position :=
  { p with row := p.row + drow }

def add_col (p : Position) (dcol : Int) : Position :=
  { p with col := p.col + dcol }

def is_diagonal_to (p other : Position) : Bool :=
  (p.col - other.col).natAbs = (p.row - other.row).natAbs

def diagonal_distance (p other : Position) : Int :=
  (p.col - other.col).natAbs

def is_orthogonal_to (p other : Position) : Bool :=
  p.col = other.col || p.row = other.row

def orthogonal_distance (p other : Position) : Int :=
  (p.col - other.col).natAbs + (p.row - other.row).natAbs

def is_adjacent_to (p other : Position) : Bool :=
  if p.is_orthogonal_to other then p.orthogonal_distance other = 1
  else if p.is_diagonal_to other then p.diagonal_distance other = 1
  else false

def is_below (p other : Position) : Bool := p.row < other.row

def is_above (p other : Position) : Bool := p.row > other.row

def is_left_of (p other : Position) : Bool := p.col < other.col

def is_right_of (p other : Position) : Bool := p.col > other.col

def next_below (p : Position) : Position := new (p.row - 1) p.col

def next_above (p : Position) : Position := new (p.row + 1) p.col

def pawn_up (p : Position) (ally_color : Color) : Position :=
  match ally_color with
  | WHITE => p.next_above
  | BLACK => p.next_below

def pawn_back (p : Position) (ally_color : Color) : Position :=
  p.pawn_up ally_color.not

def next_left (p : Position) : Position := new p.row (p.col - 1)

def next_right (p : Position) : Position := new p.row (p.col + 1)

def is_starting_pawn (p : Position) (color : Color) : Bool :=
  match color with
  | WHITE => p.row = 1
  | BLACK => p.row = 6

end Position

-- aliases for positions, as in src/position.rs

def A1 : Position := Position.new 0 0
def A2 : Position := Position.new 1 0
def A7 : Position := Position.new 6 0
def A8 : Position := Position.new 7 0
def B1 : Position := Position.new 0 1
def C1 : Position := Position.new 0 2
def C8 : Position := Position.new 7 2
def D1 : Position := Position.new 0 3
def E1 : Position := Position.new 0 4
def E2 : Position := Position.new 1 4
def E3 : Position := Position.new 2 4
def E4 : Position := Position.new 3 4
def E5 : Position := Position.new 4 4
def E6 : Position := Position.new 5 4
def E8 : Position := Position.new 7 4
def F5 : Position := Position.new 4 5
def F6 : Position := Position.new 5 5
def H1 : Position := Position.new 0 7
def H8 : Position := Position.new 7 7

namespace Position

def is_kingside_rook (p : Position) (color : Color) : Bool :=
  match color with
  | BLACK => p = H8
  | WHITE => p = H1

def is_queenside_rook (p : Position) (color : Color) : Bool :=
  match color with
  | BLACK => p = A8
  | WHITE => p = A1

/-- The `for _ in 0..n` stepping loop shared by `diagonals_to` and
`orthogonals_to`: push `n` successive `(row_step, col_step)` offsets of the
accumulator. -/
def step_list (acc : Position) (row_step col_step : Int) : Nat → List Position
  | 0 => []
  | n + 1 =>
    let acc' := (acc.add_row row_step).add_col col_step
    acc' :: step_list acc' row_step col_step n

def diagonals_to (p tpos : Position) : List Position :=
  if !p.is_diagonal_to tpos then []
  else
    let col_step : Int := if p.is_left_of tpos then 1 else -1
    let row_step : Int := if p.is_below tpos then 1 else -1
    step_list p row_step col_step (p.diagonal_distance tpos).toNat

def orthogonals_to (p tpos : Position) : List Position :=
  if !p.is_orthogonal_to tpos then []
  else
    let steps : Int × Int :=
      if p.is_left_of tpos then (0, 1)
      else if p.is_right_of tpos then (0, -1)
      else if p.is_above tpos then (-1, 0)
      else if p.is_below tpos then (1, 0)
      else (0, 0)
    step_list p steps.1 steps.2 (p.orthogonal_distance tpos).toNat

def is_knight_move (p other : Position) : Bool :=
  ((p.row - other.row).natAbs = 2 && (p.col - other.col).natAbs = 1)
    || ((p.row - other.row).natAbs = 1 && (p.col - other.col).natAbs = 2)

end Position

-- # Piece (src/piece.rs): the datatype and its board-independent methods

inductive Piece where
  | King : Color → Position → Piece
  | Queen : Color → Position → Piece
  | Rook : Color → Position → Piece
  | Bishop : Color → Position → Piece
  | Knight : Color → Position → Piece
  | Pawn : Color → Position → Piece
deriving DecidableEq

namespace Piece

def get_color : Piece → Color
  | King c _ | Queen c _ | Rook c _ | Bishop c _ | Knight c _ | Pawn c _ => c

def get_pos : Piece → Position
  | King _ p | Queen _ p | Rook _ p | Bishop _ p | Knight _ p | Pawn _ p => p

def get_material_value : Piece → Int
  | King _ _ => 99999
  | Queen _ _ => 9
  | Rook _ _ => 5
  | Bishop _ _ => 3
  | Knight _ _ => 3
  | Pawn _ _ => 1

def is_king : Piece → Bool
  | King _ _ => true
  | _ => false

def is_queen : Piece → Bool
  | Queen _ _ => true
  | _ => false

def is_rook : Piece → Bool
  | Rook _ _ => true
  | _ => false

def is_bishop : Piece → Bool
  | Bishop _ _ => true
  | _ => false

def is_knight : Piece → Bool
  | Knight _ _ => true
  | _ => false

def is_pawn : Piece → Bool
  | Pawn _ _ => true
  | _ => false

def is_starting_pawn (p : Piece) : Bool :=
  match p with
  | Pawn c pos => pos.is_starting_pawn c
  | _ => false

def is_queenside_rook (p : Piece) : Bool :=
  match p with
  | Rook _ pos => pos.is_queenside_rook p.get_color
  | _ => false

def is_kingside_rook (p : Piece) : Bool :=
  match p with
  | Rook _ pos => pos.is_kingside_rook p.get_color
  | _ => false

def move_to (p : Piece) (new_pos : Position) : Piece :=
  match p with
  | King c _ => King c new_pos
  | Queen c _ => Queen c new_pos
  | Rook c _ => Rook c new_pos
  | Bishop c _ => Bishop c new_pos
  | Knight c _ => Knight c new_pos
  | Pawn c _ => Pawn c new_pos

end Piece

-- # Square (src/square.rs)

structure Square where
  piece : Option Piece
deriving DecidableEq

namespace Square

def empty : Square := ⟨none⟩

def from_piece (p : Piece) : Square := ⟨some p⟩

def is_empty (s : Square) : Bool := s.piece = none

def get_piece (s : Square) : Option Piece := s.piece

end Square

-- # CastlingRights (src/board/castling_rights.rs)

structure CastlingRights where
  kingside : Bool
  queenside : Bool
deriving DecidableEq

namespace CastlingRights

def default : CastlingRights := ⟨true, true⟩

def can_kingside_castle (r : CastlingRights) : Bool := r.kingside

def can_queenside_castle (r : CastlingRights) : Bool := r.queenside

def disable_kingside (r : CastlingRights) : CastlingRights :=
  { r with kingside := false }

def disable_queenside (r : CastlingRights) : CastlingRights :=
  { r with queenside := false }

def disable_all (r : CastlingRights) : CastlingRights :=
  r.disable_kingside.disable_queenside

end CastlingRights

-- # Move (src/lib.rs)

inductive Move where
  | Piece : Position → Position → Move
  | KingSideCastle : Move
  | QueenSideCastle : Move
  | Resign : Move
deriving DecidableEq

-- # Board: the state record (src/board/mod.rs)

structure Board where
  squares : List Square
  en_passant : Option Position
  taken_piece : Option Piece
  promotion : Option Position
  white_castling_rights : CastlingRights
  black_castling_rights : CastlingRights
  turn : Color
deriving DecidableEq

-- # Promotion and MoveResult (src/board/types.rs)

inductive Promotion where
  | Queen : Promotion
  | Knight : Promotion
  | Bishop : Promotion
  | Rook : Promotion
deriving DecidableEq

inductive MoveResult where
  | Continuing : Board → MoveResult
  | Promote : Board → Position → MoveResult
  | Victory : Color → MoveResult
  | Stalemate : MoveResult
  | IllegalMove : Move → MoveResult
deriving DecidableEq

abbrev RatedMove := Move × ℚ

namespace Board

def empty : Board :=
  { squares := List.replicate 64 Square.empty
    en_passant := none
    taken_piece := none
    promotion := none
    white_castling_rights := CastlingRights.default
    black_castling_rights := CastlingRights.default
    turn := WHITE }

def get_turn (b : Board) : Color := b.turn

def get_en_passant (b : Board) : Option Position := b.en_passant

def get_taken_piece (b : Board) : Option Piece := b.taken_piece

/-- The Rust array index `(7 - pos.get_row()) * 8 + pos.get_col()` (as `usize`). -/
def square_index (pos : Position) : Nat :=
  ((7 - pos.row) * 8 + pos.col).toNat

def get_piece (b : Board) (pos : Position) : Option Piece :=
  if pos.is_off_board then none
  else (b.squares.getD (square_index pos) Square.empty).get_piece

def get_player_pieces (b : Board) (color : Color) : List Piece :=
  (b.squares.filterMap Square.get_piece).filter (fun p => p.get_color = color)

def get_king_pos (b : Board) (color : Color) : Option Position :=
  b.squares.foldl
    (fun king_pos square =>
      match square.get_piece with
      | some (Piece.King c pos) => if c = color then some pos else king_pos
      | _ => king_pos)
    none

def has_ally_piece (b : Board) (pos : Position) (ally_color : Color) : Bool :=
  match b.get_piece pos with
  | some piece => piece.get_color = ally_color
  | none => false

def has_enemy_piece (b : Board) (pos : Position) (ally_color : Color) : Bool :=
  match b.get_piece pos with
  | some piece => piece.get_color = ally_color.not
  | none => false

def has_piece (b : Board) (pos : Position) : Bool :=
  (b.get_piece pos).isSome

def has_no_piece (b : Board) (pos : Position) : Bool :=
  (b.get_piece pos).isNone

end Board

-- # Piece legality helpers (src/piece.rs, board-dependent methods)

namespace Piece

def is_legal_pawn_move (ally_color : Color) (pos new_pos : Position) (b : Board) : Bool :=
  let up := pos.pawn_up ally_color
  let up_left := up.next_left
  let up_right := up.next_right
  (match b.get_en_passant with
   | some en_passant =>
     (decide (en_passant = up_left) || decide (en_passant = up_right))
       && decide (new_pos = en_passant)
   | none => false)
    || (pos.is_starting_pawn ally_color && b.has_no_piece new_pos && b.has_no_piece up
          && decide (new_pos = up.pawn_up ally_color))
    || (b.has_enemy_piece new_pos ally_color && decide (new_pos = up_left))
    || (b.has_enemy_piece new_pos ally_color && decide (new_pos = up_right))
    || (b.has_no_piece new_pos && decide (new_pos = up))

def is_legal_rook_move (pos new_pos : Position) (b : Board) : Bool :=
  if pos.is_orthogonal_to new_pos then
    let traveling := (pos.orthogonals_to new_pos).dropLast
    traveling.all (fun p => !b.has_piece p)
  else false

def is_legal_bishop_move (pos new_pos : Position) (b : Board) : Bool :=
  if pos.is_diagonal_to new_pos then
    let traveling := (pos.diagonals_to new_pos).dropLast
    traveling.all (fun p => !b.has_piece p)
  else false

def is_legal_queen_move (pos new_pos : Position) (b : Board) : Bool :=
  is_legal_rook_move pos new_pos b || is_legal_bishop_move pos new_pos b

def is_legal_pawn_attack (ally_color : Color) (pos new_pos : Position) (b : Board) : Bool :=
  let up := pos.pawn_up ally_color
  (match b.get_en_passant with
   | some en_passant =>
     (decide (en_passant = up.next_left) || decide (en_passant = up.next_right))
       && decide (new_pos = en_passant)
   | none => false)
    || decide (new_pos = up.next_left)
    || decide (new_pos = up.next_right)

def is_legal_rook_attack (pos new_pos : Position) (b : Board) : Bool :=
  if pos.is_orthogonal_to new_pos then
    let traveling := (pos.orthogonals_to new_pos).dropLast
    traveling.all (fun p => !b.has_piece p)
  else false

def is_legal_bishop_attack (pos new_pos : Position) (b : Board) : Bool :=
  if pos.is_diagonal_to new_pos then
    let traveling := (pos.diagonals_to new_pos).dropLast
    traveling.all (fun p => !b.has_piece p)
  else false

def is_legal_queen_attack (pos new_pos : Position) (b : Board) : Bool :=
  is_legal_rook_attack pos new_pos b || is_legal_bishop_attack pos new_pos b

/-- `Piece::is_legal_move` in src/piece.rs (per-piece geometric legality). -/
def is_legal_move (p : Piece) (new_pos : Position) (b : Board) : Bool :=
  if b.has_ally_piece new_pos p.get_color || new_pos.is_off_board then false
  else
    match p with
    | Pawn ally_color pos => is_legal_pawn_move ally_color pos new_pos b
    | King _ pos => pos.is_adjacent_to new_pos
    | Queen _ pos => is_legal_queen_move pos new_pos b
    | Rook _ pos => is_legal_rook_move pos new_pos b
    | Bishop _ pos => is_legal_bishop_move pos new_pos b
    | Knight _ pos => pos.is_knight_move new_pos

/-- `Piece::is_legal_attack` in src/piece.rs (threat geometry, used for check). -/
def is_legal_attack (p : Piece) (new_pos : Position) (b : Board) : Bool :=
  if b.has_ally_piece new_pos p.get_color || new_pos.is_off_board then false
  else
    match p with
    | Pawn ally_color pos => is_legal_pawn_attack ally_color pos new_pos b
    | King _ pos => pos.is_adjacent_to new_pos
    | Queen _ pos => is_legal_queen_attack pos new_pos b
    | Rook _ pos => is_legal_rook_attack pos new_pos b
    | Bishop _ pos => is_legal_bishop_attack pos new_pos b
    | Knight _ pos => pos.is_knight_move new_pos

end Piece

-- # Board: threat detection and move application (src/board/mod.rs)

namespace Board

/-- `Board::is_threatened`: scan all squares (with their array index, from
which the Rust code recomputes the coordinate) for an enemy piece whose
geometry allows an attack on `pos`. The `for` loop with early `return true`
is an existential scan, modelled with `List.any` over the enumerated list. -/
def is_threatened (b : Board) (pos : Position) (ally_color : Color) : Bool :=
  (b.squares.enum).any (fun iq =>
    let i := iq.1
    let square := iq.2
    let square_pos := Position.new ((7 - i / 8 : Nat) : Int) ((i % 8 : Nat) : Int)
    if !square_pos.is_orthogonal_to pos && !square_pos.is_diagonal_to pos
        && !square_pos.is_knight_move pos then
      false
    else
      match square.get_piece with
      | some piece =>
        if piece.get_color = ally_color then false
        else piece.is_legal_attack pos b
      | none => false)

def is_in_check (b : Board) (color : Color) : Bool :=
  match b.get_king_pos color with
  | some king_pos => b.is_threatened king_pos color
  | none => false

/-- `Board::get_square` followed by assignment: write `sq` at the Rust array
index of `pos` (the Rust method assumes `pos` is on board). -/
def set_square (b : Board) (pos : Position) (sq : Square) : Board :=
  { b with squares := b.squares.set (square_index pos) sq }

def add_piece (b : Board) (piece : Piece) : Board :=
  b.set_square piece.get_pos (Square.from_piece piece)

/-- The "Check en passant" block of `Board::move_piece`. -/
def record_en_passant (piece : Piece) (fpos tpos : Position) (result : Board) : Board :=
  if piece.is_starting_pawn && (fpos.get_row - tpos.get_row).natAbs = 2 then
    { result with en_passant := some (tpos.pawn_back piece.get_color) }
  else result

/-- The "Check if there is an enemy piece at `to`" block of
`Board::move_piece`. -/
def record_taken_piece (tpos : Position) (result : Board) : Board :=
  if result.has_enemy_piece tpos result.get_turn then
    { result with taken_piece := result.get_piece tpos }
  else result

/-- The castling-rights block of `Board::move_piece`: disable both rights of
the moved piece's side if it is the king, or the matching single right if it
is the identified queenside/kingside rook. -/
def update_castling_rights (piece : Piece) (result : Board) : Board :=
  if piece.is_king then
    match piece.get_color with
    | WHITE => { result with white_castling_rights := result.white_castling_rights.disable_all }
    | BLACK => { result with black_castling_rights := result.black_castling_rights.disable_all }
  else if piece.is_queenside_rook then
    match piece.get_color with
    | WHITE =>
      { result with white_castling_rights := result.white_castling_rights.disable_queenside }
    | BLACK =>
      { result with black_castling_rights := result.black_castling_rights.disable_queenside }
  else if piece.is_kingside_rook then
    match piece.get_color with
    | WHITE =>
      { result with white_castling_rights := result.white_castling_rights.disable_kingside }
    | BLACK =>
      { result with black_castling_rights := result.black_castling_rights.disable_kingside }
  else result

/-- `Board::move_piece`, as the composition of its blocks: clear
`en_passant`/`taken_piece`, bail out on off-board coordinates, empty the
source square, record a fresh en-passant target on a double push, record a
capture, place the piece, update castling rights. -/
def move_piece (b : Board) (fpos tpos : Position) : Board :=
  let result := { b with en_passant := none, taken_piece := none }
  if fpos.is_off_board || tpos.is_off_board then result
  else
    match result.get_piece fpos with
    | none => result
    | some piece =>
      update_castling_rights piece
        ((record_taken_piece tpos
            (record_en_passant piece fpos tpos
              (result.set_square fpos Square.empty))).add_piece (piece.move_to tpos))

def apply_kingside_castle (b : Board) : Board :=
  match b.get_king_pos b.turn with
  | some king_pos =>
    let rook_pos := match b.turn with
      | WHITE => Position.new 0 7
      | BLACK => Position.new 7 7
    (b.move_piece king_pos rook_pos.next_left).move_piece rook_pos king_pos.next_right
  | none => b

def apply_queenside_castle (b : Board) : Board :=
  match b.get_king_pos b.turn with
  | some king_pos =>
    let rook_pos := match b.turn with
      | WHITE => Position.new 0 0
      | BLACK => Position.new 7 0
    (b.move_piece king_pos king_pos.next_left.next_left).move_piece rook_pos king_pos.next_left
  | none => b

/-- `Board::apply_piece_move`: relocate and, when the move consumes the
board's en-passant target with a pawn, vacate the captured pawn's square
(the Rust code writes the raw array index `(7 - ep.pawn_back(color).row) * 8
+ ep.col` directly). -/
def apply_piece_move (b : Board) (fpos tpos : Position) : Board :=
  let result := b.move_piece fpos tpos
  match b.en_passant, b.get_piece fpos with
  | some en_passant, some (Piece.Pawn player_color _) =>
    if (decide (en_passant = (fpos.pawn_up player_color).next_left)
          || decide (en_passant = (fpos.pawn_up player_color).next_right))
        && decide (en_passant = tpos) then
      { result with
        squares := result.squares.set
          (((7 - (en_passant.pawn_back player_color).get_row) * 8
              + en_passant.get_col).toNat) Square.empty }
    else result
  | _, _ => result

def apply_move (b : Board) (m : Move) : Board :=
  match m with
  | .KingSideCastle => b.apply_kingside_castle
  | .QueenSideCastle => b.apply_queenside_castle
  | .Piece fpos tpos => b.apply_piece_move fpos tpos
  | .Resign => b

def set_turn (b : Board) (color : Color) : Board :=
  { b with turn := color }

def change_turn (b : Board) : Board :=
  { b with turn := b.turn.not }

def can_kingside_castle (b : Board) (color : Color) : Bool :=
  let right_of_king := (Position.king_pos color).next_right
  match color with
  | WHITE =>
    b.has_no_piece (Position.new 0 5)
      && b.has_no_piece (Position.new 0 6)
      && decide (b.get_piece (Position.new 0 7)
          = some (Piece.Rook color (Position.new 0 7)))
      && b.white_castling_rights.can_kingside_castle
      && !b.is_in_check color
      && !b.is_threatened right_of_king color
      && !b.is_threatened right_of_king.next_right color
  | BLACK =>
    b.has_no_piece (Position.new 7 5)
      && b.has_no_piece (Position.new 7 6)
      && decide (b.get_piece (Position.new 7 7)
          = some (Piece.Rook color (Position.new 7 7)))
      && b.black_castling_rights.can_kingside_castle
      && !b.is_in_check color
      && !b.is_threatened right_of_king color
      && !b.is_threatened right_of_king.next_right color

def can_queenside_castle (b : Board) (color : Color) : Bool :=
  match color with
  | WHITE =>
    b.has_no_piece (Position.new 0 1)
      && b.has_no_piece (Position.new 0 2)
      && b.has_no_piece (Position.new 0 3)
      && decide (b.get_piece (Position.new 0 0)
          = some (Piece.Rook color (Position.new 0 0)))
      && b.white_castling_rights.can_queenside_castle
      && !b.is_in_check color
      && !b.is_threatened (Position.queen_pos color) color
  | BLACK =>
    b.has_no_piece (Position.new 7 1)
      && b.has_no_piece (Position.new 7 2)
      && b.has_no_piece (Position.new 7 3)
      && decide (b.get_piece (Position.new 7 0)
          = some (Piece.Rook color (Position.new 7 0)))
      && b.black_castling_rights.can_queenside_castle
      && !b.is_in_check color
      && !b.is_threatened (Position.queen_pos color) color

/-- `Board::is_legal_move`.  Note the pawn branch reproduces the Rust
expression `en_passant == from.pawn_up(c).next_left() || en_passant ==
from.pawn_up(c).next_right() && en_passant == to`, whose `&&` binds tighter
than `||`: the first disjunct alone ignores `to`. -/
def is_legal_move (b : Board) (m : Move) (player_color : Color) : Bool :=
  match m with
  | .KingSideCastle => b.can_kingside_castle player_color
  | .QueenSideCastle => b.can_queenside_castle player_color
  | .Piece fpos tpos =>
    match b.get_piece fpos with
    | some (Piece.Pawn c pos) =>
      let piece := Piece.Pawn c pos
      ((match b.en_passant with
        | some en_passant =>
          (decide (en_passant = (fpos.pawn_up player_color).next_left)
            || (decide (en_passant = (fpos.pawn_up player_color).next_right)
                  && decide (en_passant = tpos)))
            && decide (c = player_color)
        | none => false)
        || (piece.is_legal_move tpos b && decide (piece.get_color = player_color)))
        && !(b.apply_move m).is_in_check player_color
    | some piece =>
      piece.is_legal_move tpos b && decide (piece.get_color = player_color)
        && !(b.apply_move m).is_in_check player_color
    | none => false
  | .Resign => true

end Board

-- # Piece candidate generation (src/piece.rs)

namespace Piece

def get_pawn_legal_moves (ally_color : Color) (pos : Position) (b : Board) : List Move :=
  let up := pos.pawn_up ally_color
  let next_up := up.pawn_up ally_color
  let up_left := up.next_left
  let up_right := up.next_right
  (match b.get_en_passant with
   | some en_passant =>
     if decide (en_passant = up_left) || decide (en_passant = up_right) then
       [Move.Piece pos en_passant]
     else []
   | none => [])
  ++ (if next_up.is_on_board && pos.is_starting_pawn ally_color
        && b.has_no_piece up && b.has_no_piece next_up then
        [Move.Piece pos next_up]
      else [])
  ++ (if up.is_on_board && b.has_no_piece up then [Move.Piece pos up] else [])
  ++ (if up_left.is_on_board && b.has_enemy_piece up_left ally_color then
        [Move.Piece pos up.next_left]
      else [])
  ++ (if up_right.is_on_board && b.has_enemy_piece up.next_right ally_color then
        [Move.Piece pos up.next_right]
      else [])

def get_king_legal_moves (ally_color : Color) (pos : Position) (b : Board) : List Move :=
  ([pos.next_left, pos.next_right, pos.next_above, pos.next_below,
    pos.next_left.next_above, pos.next_left.next_below,
    pos.next_right.next_above, pos.next_right.next_below].filterMap
      (fun p =>
        if p.is_on_board && !b.has_ally_piece p ally_color then
          some (Move.Piece pos p)
        else none))
  ++ (if b.can_kingside_castle ally_color then [Move.KingSideCastle] else [])
  ++ (if b.can_queenside_castle ally_color then [Move.QueenSideCastle] else [])

def get_rook_legal_moves (ally_color : Color) (pos : Position) (b : Board) : List Move :=
  ((List.range 8).filterMap (fun row =>
    let new_pos := Position.new (row : Int) pos.get_col
    if decide (new_pos ≠ pos) && !b.has_ally_piece new_pos ally_color
        && new_pos.is_orthogonal_to pos then
      some (Move.Piece pos new_pos)
    else none))
  ++ ((List.range 8).filterMap (fun col =>
    let new_pos := Position.new pos.get_row (col : Int)
    if decide (new_pos ≠ pos) && !b.has_ally_piece new_pos ally_color
        && new_pos.is_orthogonal_to pos then
      some (Move.Piece pos new_pos)
    else none))

def get_bishop_legal_moves (ally_color : Color) (pos : Position) (b : Board) : List Move :=
  (List.range 8).flatMap (fun row =>
    (List.range 8).filterMap (fun col =>
      let new_pos := Position.new (row : Int) (col : Int)
      if decide (new_pos ≠ pos) && !b.has_ally_piece new_pos ally_color
          && new_pos.is_diagonal_to pos then
        some (Move.Piece pos new_pos)
      else none))

def get_queen_legal_moves (ally_color : Color) (pos : Position) (b : Board) : List Move :=
  get_bishop_legal_moves ally_color pos b ++ get_rook_legal_moves ally_color pos b

def get_knight_legal_moves (ally_color : Color) (pos : Position) (b : Board) : List Move :=
  [pos.next_left.next_left.next_above,
   pos.next_left.next_above.next_above,
   pos.next_left.next_left.next_below,
   pos.next_left.next_below.next_below,
   pos.next_right.next_right.next_above,
   pos.next_right.next_above.next_above,
   pos.next_right.next_right.next_below,
   pos.next_right.next_below.next_below].filterMap
    (fun p =>
      if p.is_on_board && !b.has_ally_piece p ally_color then
        some (Move.Piece pos p)
      else none)

/-- `Piece::get_legal_moves`: per-type candidates filtered through
`Board::is_legal_move` (off-board piece moves are dropped first). -/
def get_legal_moves (p : Piece) (b : Board) : List Move :=
  let result : List Move :=
    match p with
    | Pawn ally_color pos => get_pawn_legal_moves ally_color pos b
    | King ally_color pos => get_king_legal_moves ally_color pos b
    | Queen ally_color pos => get_queen_legal_moves ally_color pos b
    | Rook ally_color pos => get_rook_legal_moves ally_color pos b
    | Bishop ally_color pos => get_bishop_legal_moves ally_color pos b
    | Knight ally_color pos => get_knight_legal_moves ally_color pos b
  let color := p.get_color
  result.filter (fun x =>
    match x with
    | Move.Piece fpos tpos =>
      if fpos.is_on_board && tpos.is_on_board then b.is_legal_move x color
      else false
    | _ => b.is_legal_move x color)

end Piece

namespace Board

def get_legal_moves (b : Board) (color : Color) : List Move :=
  b.squares.foldl
    (fun result square =>
      match square.get_piece with
      | some piece =>
        if piece.get_color = color then result ++ piece.get_legal_moves b else result
      | none => result)
    []

def get_piece_legal_moves (b : Board) (pos : Position) : List Move :=
  match b.get_piece pos with
  | some piece => piece.get_legal_moves b
  | none => []

end Board

-- # Piece ordering (the derived `Ord` on the Rust `Piece` enum) and sorting

namespace Piece

/-- Variant index of the derived `Ord`/`PartialOrd` on the Rust `Piece` enum
(declaration order: King, Queen, Rook, Bishop, Knight, Pawn). -/
def kind_index : Piece → Nat
  | King _ _ => 0
  | Queen _ _ => 1
  | Rook _ _ => 2
  | Bishop _ _ => 3
  | Knight _ _ => 4
  | Pawn _ _ => 5

/-- Field index of the derived `Ord` on the Rust `Color` enum (White < Black). -/
def color_index : Color → Nat
  | WHITE => 0
  | BLACK => 1

/-- The derived lexicographic `Ord` on `Piece`: variant, then `Color`,
then `Position` (row, then col). -/
def sort_key (p : Piece) : ℕ ×ₗ (ℕ ×ₗ (ℤ ×ₗ ℤ)) :=
  toLex (p.kind_index, toLex (color_index p.get_color, toLex (p.get_pos.row, p.get_pos.col)))

end Piece

def piece_le (p q : Piece) : Prop := p.sort_key ≤ q.sort_key

instance : DecidableRel piece_le := fun p q =>
  inferInstanceAs (Decidable (p.sort_key ≤ q.sort_key))

instance : IsTotal Piece piece_le := ⟨fun a b => le_total a.sort_key b.sort_key⟩

instance : IsTrans Piece piece_le := ⟨fun _ _ _ hab hbc => le_trans hab hbc⟩

/-- `Vec::sort` on pieces: any sort by the derived total `Ord` produces the
same list (elements with equal keys are equal pieces), modelled with
insertion sort by `piece_le`. -/
def sort_pieces (l : List Piece) : List Piece :=
  l.insertionSort piece_le

namespace Board

/-- The disjunction of length-guarded index patterns tested by
`Board::has_sufficient_material` on the sorted piece list, written as a
match on its shape: empty, lone king, king+knight, king+bishop,
king+2 knights, king+2 bishops. -/
def insufficient_pattern : List Piece → Bool
  | [] => true
  | [a] => a.is_king
  | [a, c] => (a.is_king && c.is_knight) || (a.is_king && c.is_bishop)
  | [a, c, d] =>
    (a.is_king && c.is_knight && d.is_knight)
      || (a.is_king && c.is_bishop && d.is_bishop)
  | _ => false

/-- `Board::has_sufficient_material`: sort the player's pieces and negate
the insufficiency patterns. -/
def has_sufficient_material (b : Board) (color : Color) : Bool :=
  !(insufficient_pattern (sort_pieces (b.get_player_pieces color)))

def has_insufficient_material (b : Board) (color : Color) : Bool :=
  !b.has_sufficient_material color

def is_stalemate (b : Board) : Bool :=
  ((b.get_legal_moves b.get_turn).isEmpty && !b.is_in_check b.get_turn)
    || (b.has_insufficient_material b.turn
          && b.has_insufficient_material b.turn.not)

def is_checkmate (b : Board) : Bool :=
  b.is_in_check b.get_turn && (b.get_legal_moves b.get_turn).isEmpty

end Board

-- # Positional weight tables (src/piece.rs), `f64` modelled as `ℚ`

def WHITE_KING_POSITION_WEIGHTS : List (List ℚ) := [
  [-3.0, -4.0, -4.0, -5.0, -5.0, -4.0, -4.0, -3.0],
  [-3.0, -4.0, -4.0, -5.0, -5.0, -4.0, -4.0, -3.0],
  [-3.0, -4.0, -4.0, -5.0, -5.0, -4.0, -4.0, -3.0],
  [-3.0, -4.0, -4.0, -5.0, -5.0, -4.0, -4.0, -3.0],
  [-2.0, -3.0, -3.0, -4.0, -4.0, -3.0, -3.0, -2.0],
  [-1.0, -2.0, -2.0, -2.0, -2.0, -2.0, -2.0, -1.0],
  [2.0, 2.0, 0.0, 0.0, 0.0, 0.0, 2.0, 2.0],
  [2.0, 3.0, 1.0, 0.0, 0.0, 1.0, 3.0, 2.0]]

def BLACK_KING_POSITION_WEIGHTS : List (List ℚ) := [
  [2.0, 3.0, 1.0, 0.0, 0.0, 1.0, 3.0, 2.0],
  [2.0, 2.0, 0.0, 0.0, 0.0, 0.0, 2.0, 2.0],
  [-1.0, -2.0, -2.0, -2.0, -2.0, -2.0, -2.0, -1.0],
  [-2.0, -3.0, -3.0, -4.0, -4.0, -3.0, -3.0, -2.0],
  [-3.0, -4.0, -4.0, -5.0, -5.0, -4.0, -4.0, -3.0],
  [-3.0, -4.0, -4.0, -5.0, -5.0, -4.0, -4.0, -3.0],
  [-3.0, -4.0, -4.0, -5.0, -5.0, -4.0, -4.0, -3.0],
  [-3.0, -4.0, -4.0, -5.0, -5.0, -4.0, -4.0, -3.0]]

def WHITE_QUEEN_POSITION_WEIGHTS : List (List ℚ) := [
  [-2.0, -1.0, -1.0, -0.5, -0.5, -1.0, -1.0, -2.0],
  [-1.0, 0.0, 0.0, 0.0, 0.0, 0.0, 0.0, -1.0],
  [-1.0, 0.0, 0.5, 0.5, 0.5, 0.5, 0.0, -1.0],
  [-0.5, 0.0, 0.5, 0.5, 0.5, 0.5, 0.0, -0.5],
  [0.0, 0.0, 0.5, 0.5, 0.5, 0.5, 0.0, -0.5],
  [-1.0, 0.5, 0.5, 0.5, 0.5, 0.5, 0.0, -1.0],
  [-1.0, 0.0, 0.5, 0.0, 0.0, 0.0, 0.0, -1.0],
  [-1.0, -0.0, -1.0, -0.5, -0.5, -0.5, -1.0, -2.0]]

def BLACK_QUEEN_POSITION_WEIGHTS : List (List ℚ) := [
  [-1.0, -0.0, -1.0, -0.5, -0.5, -0.5, -1.0, -2.0],
  [-1.0, 0.0, 0.5, 0.0, 0.0, 0.0, 0.0, -1.0],
  [-1.0, 0.5, 0.5, 0.5, 0.5, 0.5, 0.0, -1.0],
  [0.0, 0.0, 0.5, 0.5, 0.5, 0.5, 0.0, -0.5],
  [-0.5, 0.0, 0.5, 0.5, 0.5, 0.5, 0.0, -0.5],
  [-1.0, 0.0, 0.5, 0.5, 0.5, 0.5, 0.0, -1.0],
  [-1.0, 0.0, 0.0, 0.0, 0.0, 0.0, 0.0, -1.0],
  [-2.0, -1.0, -1.0, -0.5, -0.5, -1.0, -1.0, -2.0]]

def WHITE_ROOK_POSITION_WEIGHTS : List (List ℚ) := [
  [0.0, 0.0, 0.0, 0.0, 0.0, 0.0, 0.0, 0.0],
  [0.5, 1.0, 1.0, 1.0, 1.0, 1.0, 1.0, 0.5],
  [-0.5, 0.0, 0.0, 0.0, 0.0, 0.0, 0.0, -0.5],
  [-0.5, 0.0, 0.0, 0.0, 0.0, 0.0, 0.0, -0.5],
  [-0.5, 0.0, 0.0, 0.0, 0.0, 0.0, 0.0, -0.5],
  [-0.5, 0.0, 0.0, 0.0, 0.0, 0.0, 0.0, -0.5],
  [-0.5, 0.0, 0.0, 0.0, 0.0, 0.0, 0.0, -0.5],
  [0.0, 0.0, 0.0, 0.5, 0.5, 0.0, 0.0, 0.0]]

def BLACK_ROOK_POSITION_WEIGHTS : List (List ℚ) := [
  [0.0, 0.0, 0.0, 0.5, 0.5, 0.0, 0.0, 0.0],
  [-0.5, 0.0, 0.0, 0.0, 0.0, 0.0, 0.0, -0.5],
  [-0.5, 0.0, 0.0, 0.0, 0.0, 0.0, 0.0, -0.5],
  [-0.5, 0.0, 0.0, 0.0, 0.0, 0.0, 0.0, -0.5],
  [-0.5, 0.0, 0.0, 0.0, 0.0, 0.0, 0.0, -0.5],
  [-0.5, 0.0, 0.0, 0.0, 0.0, 0.0, 0.0, -0.5],
  [0.5, 1.0, 1.0, 1.0, 1.0, 1.0, 1.0, 0.5],
  [0.0, 0.0, 0.0, 0.0, 0.0, 0.0, 0.0, 0.0]]

def WHITE_BISHOP_POSITION_WEIGHTS : List (List ℚ) := [
  [-2.0, -1.0, -1.0, -1.0, -1.0, -1.0, -1.0, -2.0],
  [-1.0, 0.0, 0.0, 0.0, 0.0, 0.0, 0.0, -1.0],
  [-1.0, 0.0, 0.5, 1.0, 1.0, 0.5, 0.0, -1.0],
  [-1.0, 0.5, 0.5, 1.0, 1.0, 0.5, 0.5, -1.0],
  [-1.0, 0.0, 1.0, 1.0, 1.0, 1.0, 0.0, -1.0],
  [-1.0, 1.0, 1.0, 1.0, 1.0, 1.0, 1.0, -1.0],
  [-1.0, 0.5, 0.0, 0.0, 0.0, 0.0, 0.5, -1.0],
  [-2.0, -1.0, -1.0, -1.0, -1.0, -1.0, -1.0, -2.0]]

def BLACK_BISHOP_POSITION_WEIGHTS : List (List ℚ) := [
  [-2.0, -1.0, -1.0, -1.0, -1.0, -1.0, -1.0, -2.0],
  [-1.0, 0.5, 0.0, 0.0, 0.0, 0.0, 0.5, -1.0],
  [-1.0, 1.0, 1.0, 1.0, 1.0, 1.0, 1.0, -1.0],
  [-1.0, 0.0, 1.0, 1.0, 1.0, 1.0, 0.0, -1.0],
  [-1.0, 0.5, 0.5, 1.0, 1.0, 0.5, 0.5, -1.0],
  [-1.0, 0.0, 0.5, 1.0, 1.0, 0.5, 0.0, -1.0],
  [-1.0, 0.0, 0.0, 0.0, 0.0, 0.0, 0.0, -1.0],
  [-2.0, -1.0, -1.0, -1.0, -1.0, -1.0, -1.0, -2.0]]

def WHITE_KNIGHT_POSITION_WEIGHTS : List (List ℚ) := [
  [-5.0, -4.0, -3.0, -3.0, -3.0, -3.0, -4.0, -5.0],
  [-4.0, -2.0, 0.0, 0.0, 0.0, 0.0, -2.0, -4.0],
  [-3.0, 0.0, 1.0, 1.5, 1.5, 1.0, 0.0, -3.0],
  [-3.0, 0.5, 1.5, 2.0, 2.0, 1.5, 0.5, -3.0],
  [-3.0, 0.0, 1.5, 2.0, 2.0, 1.5, 0.0, -3.0],
  [-3.0, 0.5, 1.0, 1.5, 1.5, 1.0, 0.5, -3.0],
  [-4.0, -2.0, 0.0, 0.5, 0.5, 0.0, -2.0, -4.0],
  [-5.0, -4.0, -3.0, -3.0, -3.0, -3.0, -4.0, -5.0]]

def BLACK_KNIGHT_POSITION_WEIGHTS : List (List ℚ) := [
  [-5.0, -4.0, -3.0, -3.0, -3.0, -3.0, -4.0, -5.0],
  [-4.0, -2.0, 0.0, 0.5, 0.5, 0.0, -2.0, -4.0],
  [-3.0, 0.5, 1.0, 1.5, 1.5, 1.0, 0.5, -3.0],
  [-3.0, 0.0, 1.5, 2.0, 2.0, 1.5, 0.0, -3.0],
  [-3.0, 0.5, 1.5, 2.0, 2.0, 1.5, 0.5, -3.0],
  [-3.0, 0.0, 1.0, 1.5, 1.5, 1.0, 0.0, -3.0],
  [-4.0, -2.0, 0.0, 0.0, 0.0, 0.0, -2.0, -4.0],
  [-5.0, -4.0, -3.0, -3.0, -3.0, -3.0, -4.0, -5.0]]

def WHITE_PAWN_POSITION_WEIGHTS : List (List ℚ) := [
  [0.0, 0.0, 0.0, 0.0, 0.0, 0.0, 0.0, 0.0],
  [5.0, 5.0, 5.0, 5.0, 5.0, 5.0, 5.0, 5.0],
  [1.0, 1.0, 2.0, 3.0, 3.0, 2.0, 1.0, 1.0],
  [0.5, 0.5, 1.0, 2.5, 2.5, 1.0, 0.5, 0.5],
  [0.0, 0.0, 0.0, 2.0, 2.0, 0.0, 0.0, 0.0],
  [0.5, -0.5, -1.0, 0.0, 0.0, -1.0, -0.5, 0.5],
  [0.5, 1.5, -1.0, -2.0, -2.0, 1.0, 1.5, 0.5],
  [0.0, 0.0, 0.0, 0.0, 0.0, 0.0, 0.0, 0.0]]

def BLACK_PAWN_POSITION_WEIGHTS : List (List ℚ) := [
  [0.0, 0.0, 0.0, 0.0, 0.0, 0.0, 0.0, 0.0],
  [0.5, 1.5, -1.0, -2.0, -2.0, 1.0, 1.5, 0.5],
  [0.5, -0.5, -1.0, 0.0, 0.0, -1.0, -0.5, 0.5],
  [0.0, 0.0, 0.0, 2.0, 2.0, 0.0, 0.0, 0.0],
  [0.5, 0.5, 1.0, 2.5, 2.5, 1.0, 0.5, 0.5],
  [1.0, 1.0, 2.0, 3.0, 3.0, 2.0, 1.0, 1.0],
  [5.0, 5.0, 5.0, 5.0, 5.0, 5.0, 5.0, 5.0],
  [0.0, 0.0, 0.0, 0.0, 0.0, 0.0, 0.0, 0.0]]

namespace Piece

/-- `Piece::get_weighted_value`: table entry at `[(7 - row)][col]` plus 10
times the material value. -/
def get_weighted_value (p : Piece) : ℚ :=
  let weights :=
    match p with
    | King c _ => match c with
      | WHITE => WHITE_KING_POSITION_WEIGHTS
      | BLACK => BLACK_KING_POSITION_WEIGHTS
    | Queen c _ => match c with
      | WHITE => WHITE_QUEEN_POSITION_WEIGHTS
      | BLACK => BLACK_QUEEN_POSITION_WEIGHTS
    | Rook c _ => match c with
      | WHITE => WHITE_ROOK_POSITION_WEIGHTS
      | BLACK => BLACK_ROOK_POSITION_WEIGHTS
    | Bishop c _ => match c with
      | WHITE => WHITE_BISHOP_POSITION_WEIGHTS
      | BLACK => BLACK_BISHOP_POSITION_WEIGHTS
    | Knight c _ => match c with
      | WHITE => WHITE_KNIGHT_POSITION_WEIGHTS
      | BLACK => BLACK_KNIGHT_POSITION_WEIGHTS
    | Pawn c _ => match c with
      | WHITE => WHITE_PAWN_POSITION_WEIGHTS
      | BLACK => BLACK_PAWN_POSITION_WEIGHTS
  (weights.getD (7 - p.get_pos.get_row).toNat []).getD p.get_pos.get_col.toNat 0
    + (p.get_material_value * 10 : Int)

end Piece

namespace Board

def get_player_value (b : Board) (color : Color) : ℚ :=
  (b.squares.map (fun square =>
    match square.get_piece with
    | some piece =>
      if piece.get_color = color then piece.get_weighted_value
      else -piece.get_weighted_value
    | none => (0 : ℚ))).sum

end Board

-- # Minimax with alpha-beta pruning (src/board/mod.rs)

/-- The maximizing `for` loop of `Board::minimax` with its early `return` on
`beta <= alpha`; `eval` is the recursive call at the next lower depth.  In
this branch only `alpha` is mutated; `beta` is fixed. -/
def minimax_max_loop (eval : Board → ℚ → ℚ → ℚ) (b : Board) (beta : ℚ) :
    List Move → ℚ → ℚ → ℚ
  | [], _, best_move_value => best_move_value
  | m :: ms, alpha, best_move_value =>
    let child_board_value := eval (b.apply_move m) alpha beta
    let best' := if child_board_value > best_move_value then child_board_value
      else best_move_value
    let alpha' := if best' > alpha then best' else alpha
    if beta ≤ alpha' then best'
    else minimax_max_loop eval b beta ms alpha' best'

/-- The minimizing `for` loop of `Board::minimax`; only `beta` is mutated. -/
def minimax_min_loop (eval : Board → ℚ → ℚ → ℚ) (b : Board) (alpha : ℚ) :
    List Move → ℚ → ℚ → ℚ
  | [], _, best_move_value => best_move_value
  | m :: ms, beta, best_move_value =>
    let child_board_value := eval (b.apply_move m) alpha beta
    let best' := if child_board_value < best_move_value then child_board_value
      else best_move_value
    let beta' := if best' < beta then best' else beta
    if beta' ≤ alpha then best'
    else minimax_min_loop eval b alpha ms beta' best'

def Board.minimax (b : Board) : Nat → ℚ → ℚ → Bool → Color → ℚ
  | 0, _, _, _, getting_move_for => b.get_player_value getting_move_for
  | depth + 1, alpha, beta, is_maximizing, getting_move_for =>
    let legal_moves := b.get_legal_moves b.get_turn
    if is_maximizing then
      minimax_max_loop
        (fun b' a' b'' => b'.minimax depth a' b'' (!is_maximizing) getting_move_for)
        b beta legal_moves alpha (-999999)
    else
      minimax_min_loop
        (fun b' a' b'' => b'.minimax depth a' b'' (!is_maximizing) getting_move_for)
        b alpha legal_moves beta 999999

namespace Board

def rate_legal_moves (b : Board) (depth : Nat) : List RatedMove :=
  let legal_moves := b.get_legal_moves b.get_turn
  let color := b.get_turn
  legal_moves.map (fun x =>
    (x, (b.apply_move x).minimax depth (-1000000) 1000000 false color))

/-- Rust `Iterator::max_by` with the comparator `if a.1 > b.1 then Greater
else Less`: a left fold where a later element replaces the accumulator
whenever the accumulator's value is not strictly greater. -/
def rust_max_by (l : List RatedMove) : Option RatedMove :=
  match l with
  | [] => none
  | x :: xs => some (xs.foldl (fun acc y => if acc.2 > y.2 then acc else y) x)

def get_best_next_move (b : Board) (depth : Nat) : RatedMove :=
  match rust_max_by (b.rate_legal_moves depth) with
  | some values => values
  | none => (Move.Resign, -999999)

def get_worst_next_move (b : Board) (depth : Nat) : RatedMove :=
  let legal_moves := b.get_legal_moves b.get_turn
  let color := b.get_turn
  (rust_max_by (legal_moves.map (fun x =>
    (x, (b.apply_move x).minimax depth (-1000000) 1000000 true color.not)))).getD
    (Move.Resign, -999999)

end Board

-- # Promotion handling and the move state machine (src/board/mod.rs)

namespace Piece

/-- Modelled from the spec: `Piece::is_promoting_pawn` is used by
`Board::check_available_pawn_promotion` but is not among the provided source
files.  Per the spec ("check whether a pawn now sits on the back rank",
promotion being "set when the previous move placed a pawn on the back
rank"), it holds exactly for a pawn standing on the far rank from its own
color's perspective: row 7 for White, row 0 for Black. -/
def is_promoting_pawn (p : Piece) : Bool :=
  match p with
  | Pawn WHITE pos => pos.get_row = 7
  | Pawn BLACK pos => pos.get_row = 0
  | _ => false

end Piece

namespace Board

/-- `Board::check_available_pawn_promotion`: scan all squares for a
promoting pawn of the current turn's color (the last match wins, as the
Rust loop overwrites), and store it in the `promotion` field. -/
def check_available_pawn_promotion (b : Board) : Board :=
  let promoting_pawn : Option Position :=
    b.squares.foldl
      (fun acc square =>
        match square.get_piece with
        | some piece =>
          if piece.is_promoting_pawn && piece.get_color = b.get_turn then
            some piece.get_pos
          else acc
        | none => acc)
      none
  { b with promotion := promoting_pawn }

/-- `Board::play_move`; `none` models the Rust `panic!` when a promotion is
pending. -/
def play_move (b : Board) (m : Move) : Option MoveResult :=
  let current_color := b.get_turn
  match b.promotion with
  | some _ => none
  | none =>
    some
      (if m = Move.Resign then MoveResult.Victory current_color.not
       else if b.is_legal_move m current_color then
         let next_turn := b.apply_move m
         if next_turn.change_turn.is_checkmate then MoveResult.Victory current_color
         else if next_turn.change_turn.is_stalemate then MoveResult.Stalemate
         else
           let next_turn := next_turn.check_available_pawn_promotion
           match next_turn.promotion with
           | some pos_promotion => MoveResult.Promote next_turn pos_promotion
           | none => MoveResult.Continuing next_turn.change_turn
       else MoveResult.IllegalMove m)

/-- `Board::promote`; `none` models the Rust `panic!` when no promotion is
pending. -/
def promote (b : Board) (promotion : Promotion) : Option Board :=
  match b.promotion with
  | some pos =>
    let result := { b with promotion := none }
    let color := result.get_turn
    let piece : Piece :=
      match promotion with
      | Promotion.Bishop => Piece.Bishop color pos
      | Promotion.Knight => Piece.Knight color pos
      | Promotion.Queen => Piece.Queen color pos
      | Promotion.Rook => Piece.Rook color pos
    some (result.add_piece piece).change_turn
  | none => none

end Board

-- # Spec-side definitions (refinement counterparts, following the spec's words)

/-- Spec-side (claim C3): the exact destination set the spec allows a pawn of
color `c` standing at `fpos`: single push onto the empty square ahead;
double push from the starting rank over two empty squares; diagonal capture
onto an enemy-occupied square; en-passant capture onto the board's
en-passant square when it is one of the two diagonal-forward squares. -/
def pawn_claim_destinations (b : Board) (c : Color) (fpos tpos : Position) : Bool :=
  let up := fpos.pawn_up c
  (b.has_no_piece tpos && decide (tpos = up))
    || (fpos.is_starting_pawn c && b.has_no_piece up && b.has_no_piece tpos
          && decide (tpos = up.pawn_up c))
    || (b.has_enemy_piece tpos c
          && (decide (tpos = up.next_left) || decide (tpos = up.next_right)))
    || (match b.en_passant with
        | some ep =>
          (decide (ep = up.next_left) || decide (ep = up.next_right))
            && decide (tpos = ep)
        | none => false)

/-- Spec-side (claim C5): a player's material is insufficient exactly when
the pieces form one of {king}, {king, knight}, {king, bishop},
{king, 2 knights}, {king, 2 bishops}, expressed by length and kind counts. -/
def insufficient_material_claim (l : List Piece) : Bool :=
  let nK := l.countP Piece.is_king
  let nB := l.countP Piece.is_bishop
  let nN := l.countP Piece.is_knight
  (decide (l.length = 1) && decide (nK = 1))
    || (decide (l.length = 2) && decide (nK = 1) && decide (nN = 1))
    || (decide (l.length = 2) && decide (nK = 1) && decide (nB = 1))
    || (decide (l.length = 3) && decide (nK = 1) && decide (nN = 2))
    || (decide (l.length = 3) && decide (nK = 1) && decide (nB = 2))

/-- Claim C5's right-hand side for `is_stalemate`, built from the spec-side
insufficiency predicate. -/
def is_stalemate_claim (b : Board) : Bool :=
  ((b.get_legal_moves b.get_turn).isEmpty && !b.is_in_check b.get_turn)
    || (insufficient_material_claim (b.get_player_pieces b.turn)
          && insufficient_material_claim (b.get_player_pieces b.turn.not))

/-- Amended (claim C5): the code additionally counts an empty piece list as
insufficient material. -/
def insufficient_material_amended (l : List Piece) : Bool :=
  l.isEmpty || insufficient_material_claim l

/-- Spec-side (claim C8): the first maximally-scored element, i.e. a scan
that only replaces the current best on a strictly greater value. -/
def first_max_rated (l : List RatedMove) : Option RatedMove :=
  match l with
  | [] => none
  | x :: xs => some (xs.foldl (fun acc y => if y.2 > acc.2 then y else acc) x)

/-- Spec-side (claim C4): the `play_move` result described by the claim, in
its stated order: Resign, legality, opponent checkmate, opponent stalemate,
pending promotion (turn kept), continuation (turn flipped). -/
def play_move_claim (b : Board) (m : Move) : MoveResult :=
  if m = Move.Resign then MoveResult.Victory b.get_turn.not
  else if !b.is_legal_move m b.get_turn then MoveResult.IllegalMove m
  else if (b.apply_move m).change_turn.is_checkmate then MoveResult.Victory b.get_turn
  else if (b.apply_move m).change_turn.is_stalemate then MoveResult.Stalemate
  else
    match (b.apply_move m).check_available_pawn_promotion.promotion with
    | some sq => MoveResult.Promote (b.apply_move m).check_available_pawn_promotion sq
    | none => MoveResult.Continuing (b.apply_move m).change_turn

-- # Concrete boards used by counterexamples and witnesses

/-- White king e1, white rook a1, black rook c8, White to move: queenside
castling is accepted although the king's landing square c1 is attacked. -/
def board_qs : Board :=
  ((Board.empty.add_piece (Piece.King WHITE E1)).add_piece
      (Piece.Rook WHITE A1)).add_piece (Piece.Rook BLACK C8)

/-- White pawn f5, black pawn e5, en-passant square e6 (as after Black's
e7e5), White to move. -/
def board_pawn_ep : Board :=
  { (Board.empty.add_piece (Piece.Pawn WHITE F5)).add_piece (Piece.Pawn BLACK E5) with
    en_passant := some E6 }

/-- A lone white king on e4, White to move. -/
def board_lone_king : Board := Board.empty.add_piece (Piece.King WHITE E4)

/-- A lone white rook on a1, White to move. -/
def board_rook : Board := Board.empty.add_piece (Piece.Rook WHITE A1)

/-- A white pawn at e2, White to move (for a double-push witness). -/
def board_pawn_e2 : Board := Board.empty.add_piece (Piece.Pawn WHITE E2)

/-- A board with a pending promotion: white pawn e8, `promotion` e8. -/
def board_pending : Board :=
  { Board.empty.add_piece (Piece.Pawn WHITE E8) with promotion := some E8 }

/-- An empty board whose White kingside castling right is already lost. -/
def board_no_ks : Board :=
  { Board.empty with white_castling_rights := ⟨false, true⟩ }

set_option maxRecDepth 1000000

-- # Claim C10: search sentinels on a board without legal moves

/-- C10: whenever the current player has no legal moves, both
`get_best_next_move` and `get_worst_next_move` return the sentinel pair
`(Move::Resign, -999999.0)` at every depth. -/
theorem C10_sentinel_on_no_moves (b : Board) (depth : Nat)
    (h : b.get_legal_moves b.get_turn = []) :
    b.get_best_next_move depth = (Move.Resign, -999999)
      ∧ b.get_worst_next_move depth = (Move.Resign, -999999) := by
  constructor
  · simp [Board.get_best_next_move, Board.rate_legal_moves, h, Board.rust_max_by]
  · simp [Board.get_worst_next_move, h, Board.rust_max_by]

/-- Witness for C10 at the empty board and depth 3. -/
theorem C10_witness :
    Board.empty.get_legal_moves Board.empty.get_turn = []
      ∧ Board.empty.get_best_next_move 3 = (Move.Resign, -999999)
      ∧ Board.empty.get_worst_next_move 3 = (Move.Resign, -999999) :=
  ⟨by decide, (C10_sentinel_on_no_moves Board.empty 3 (by decide)).1,
    (C10_sentinel_on_no_moves Board.empty 3 (by decide)).2⟩

-- # Claim C3: pawn destinations admitted by `Board::is_legal_move`

/-- C3: the code approves the pawn move f5-a1 on a board whose en-passant
square is e6 (the square up-left of the pawn), although a1 is none of the
spec's admissible pawn destinations; the piece-level
`Piece::is_legal_move` of the same code base rejects the move.  The claim
fails on the code because `en_passant == up_left || en_passant == up_right
&& en_passant == to` groups as `up_left-match alone, regardless of to`. -/
theorem C3_en_passant_precedence_bug :
    board_pawn_ep.is_legal_move (Move.Piece F5 A1) WHITE = true
      ∧ pawn_claim_destinations board_pawn_ep WHITE F5 A1 = false
      ∧ (Piece.Pawn WHITE F5).is_legal_move A1 board_pawn_ep = false := by
  decide

-- # Claim C1: does an approved move ever leave the mover in check?

/-- Counterexample to C1: with a white king on e1, a white rook on a1 and a
black rook on c8, `is_legal_move` approves White's queenside castle, yet
the resulting position leaves White's king (now on c1) in check. -/
theorem C1_counterexample :
    board_qs.is_legal_move Move.QueenSideCastle WHITE = true
      ∧ (board_qs.apply_move Move.QueenSideCastle).is_in_check WHITE = true := by
  decide

/-- C1 (amended): restricted to ordinary piece moves `Move::Piece(from,to)`,
a move approved by `is_legal_move(m, c)` never leaves color `c` in check
(the approval itself conjoins `!apply_move(m).is_in_check(c)`).  Castles and
`Resign` are excluded: `Resign` keeps the board (and any existing check),
and the castling test does not re-examine the king's landing square. -/
theorem C1_piece_move_no_self_check (b : Board) (c : Color) (fpos tpos : Position)
    (h : b.is_legal_move (Move.Piece fpos tpos) c = true) :
    (b.apply_move (Move.Piece fpos tpos)).is_in_check c = false := by
  rcases hp : b.get_piece fpos with _ | p
  · simp [Board.is_legal_move, hp] at h
  · simp only [Board.is_legal_move, hp] at h
    cases p <;>
      simp only [Bool.and_eq_true, Bool.not_eq_true'] at h <;>
      exact h.2

/-- Witness for C1 (amended): the legal king step e1-e2 of a lone white
king. -/
theorem C1_witness :
    board_lone_king.is_legal_move (Move.Piece E4 E3) WHITE = true
      ∧ (board_lone_king.apply_move (Move.Piece E4 E3)).is_in_check WHITE = false :=
  ⟨by decide, C1_piece_move_no_self_check board_lone_king WHITE E4 E3 (by decide)⟩

-- # Claim C8: tie-breaking of `get_best_next_move`

/-- Counterexample to C8: a lone white rook on a1 at depth 0 has three
equally maximal moves (a1a7, a1d1, a1e1, each scoring 50.5); the claim's
first-encountered tie-break picks a1a7, but the code returns the last one,
a1e1. -/
theorem C8_counterexample :
    board_rook.get_best_next_move 0 = (Move.Piece A1 E1, 101 / 2)
      ∧ first_max_rated (board_rook.rate_legal_moves 0)
          = some (Move.Piece A1 A7, 101 / 2)
      ∧ (Move.Piece A1 E1 : Move) ≠ Move.Piece A1 A7 := by
  decide

/-- The fold inside Rust's `max_by` (with comparator `a > b ? Greater :
Less`) keeps the last maximally-scored element: the input splits around the
result into a prefix of values `≤` it and a suffix of values `<` it. -/
theorem foldl_max_by_last_max (x : RatedMove) (xs : List RatedMove) :
    ∃ l₁ l₂,
      x :: xs = l₁ ++ (xs.foldl (fun acc y => if acc.2 > y.2 then acc else y) x) :: l₂
        ∧ (∀ a ∈ l₁, a.2 ≤ (xs.foldl (fun acc y => if acc.2 > y.2 then acc else y) x).2)
        ∧ (∀ a ∈ l₂, a.2 < (xs.foldl (fun acc y => if acc.2 > y.2 then acc else y) x).2) := by
  induction xs generalizing x with
  | nil => exact ⟨[], [], rfl, by simp, by simp⟩
  | cons y ys ih =>
    by_cases h : x.2 > y.2
    · have hs : (y :: ys).foldl (fun acc y => if acc.2 > y.2 then acc else y) x
          = ys.foldl (fun acc y => if acc.2 > y.2 then acc else y) x := by
        simp [List.foldl, if_pos h]
      obtain ⟨l₁, l₂, hdec, h₁, h₂⟩ := ih x
      cases l₁ with
      | nil =>
        obtain ⟨hx, hys⟩ : x = ys.foldl (fun acc y => if acc.2 > y.2 then acc else y) x
            ∧ ys = l₂ := by
          simpa using hdec
        refine ⟨[], y :: ys, by simp [hs, ← hx], by simp, ?_⟩
        intro a ha
        rw [hs, ← hx]
        rcases List.mem_cons.mp ha with rfl | ha
        · exact h
        · rw [hys] at ha
          have := h₂ a ha
          rwa [← hx] at this
      | cons a t =>
        obtain ⟨hax, hys⟩ : a = x
            ∧ ys = t ++ (ys.foldl (fun acc y => if acc.2 > y.2 then acc else y) x) :: l₂ := by
          constructor
          · exact (List.cons_eq_cons.mp hdec).1.symm
          · exact (List.cons_eq_cons.mp hdec).2
        refine ⟨x :: y :: t, l₂, ?_, ?_, fun a₂ ha₂ => by
          have := h₂ a₂ ha₂; rwa [hs]⟩
        · rw [hs]
          simp only [List.cons_append]
          rw [← hys]
        · intro a₂ ha₂
          rw [hs]
          rcases List.mem_cons.mp ha₂ with rfl | ha₂
          · exact h₁ a₂ (hax ▸ List.mem_cons_self a t)
          · rcases List.mem_cons.mp ha₂ with rfl | ha₂
            · have hx_le := h₁ x (hax ▸ List.mem_cons_self a t)
              exact le_trans (le_of_lt h) hx_le
            · exact h₁ a₂ (List.mem_cons_of_mem a ha₂)
    · have hs : (y :: ys).foldl (fun acc y => if acc.2 > y.2 then acc else y) x
          = ys.foldl (fun acc y => if acc.2 > y.2 then acc else y) y := by
        simp [List.foldl, if_neg h]
      obtain ⟨l₁, l₂, hdec, h₁, h₂⟩ := ih y
      have hy_le : y.2 ≤ (ys.foldl (fun acc y => if acc.2 > y.2 then acc else y) y).2 := by
        cases l₁ with
        | nil =>
          have : y = ys.foldl (fun acc y => if acc.2 > y.2 then acc else y) y := by
            simpa using (List.cons_eq_cons.mp (by simpa using hdec)).1
          rw [← this]
        | cons a t =>
          exact h₁ y ((List.cons_eq_cons.mp hdec).1 ▸ List.mem_cons_self a t)
      refine ⟨x :: l₁, l₂, ?_, ?_, fun a ha => by have := h₂ a ha; rwa [hs]⟩
      · rw [hs]
        simpa using hdec
      · intro a ha
        rw [hs]
        rcases List.mem_cons.mp ha with rfl | ha
        · exact le_trans (not_lt.mp h) hy_le
        · exact h₁ a ha

/-- C8 (amended): when several legal moves share the maximal minimax score,
`get_best_next_move` returns the LAST maximally-scored move in enumeration
order (a later move with a value greater than or equal to the current best
replaces it): the rated-move list splits as `l₁ ++ result :: l₂` with every
earlier score `≤` the result's and every later score strictly below it. -/
theorem C8_last_max (b : Board) (depth : Nat) (h : b.rate_legal_moves depth ≠ []) :
    ∃ l₁ l₂,
      b.rate_legal_moves depth = l₁ ++ (b.get_best_next_move depth) :: l₂
        ∧ (∀ a ∈ l₁, a.2 ≤ (b.get_best_next_move depth).2)
        ∧ (∀ a ∈ l₂, a.2 < (b.get_best_next_move depth).2) := by
  rcases hl : b.rate_legal_moves depth with _ | ⟨x, xs⟩
  · exact absurd hl h
  · have hbest : b.get_best_next_move depth
        = xs.foldl (fun acc y => if acc.2 > y.2 then acc else y) x := by
      simp [Board.get_best_next_move, Board.rust_max_by, hl]
    rw [hbest]
    exact foldl_max_by_last_max x xs

/-- Witness for C8 (amended) on the lone-rook board at depth 0. -/
theorem C8_witness :
    board_rook.rate_legal_moves 0 ≠ []
      ∧ ∃ l₁ l₂,
          board_rook.rate_legal_moves 0 = l₁ ++ (board_rook.get_best_next_move 0) :: l₂
            ∧ (∀ a ∈ l₁, a.2 ≤ (board_rook.get_best_next_move 0).2)
            ∧ (∀ a ∈ l₂, a.2 < (board_rook.get_best_next_move 0).2) :=
  ⟨by decide, C8_last_max board_rook 0 (by decide)⟩

-- # Claim C9: castling rights are monotone under move application

set_option maxHeartbeats 2000000

/-- `Board::get_piece` only reads the `squares` field, so clearing
`en_passant` and `taken_piece` does not affect it. -/
theorem get_piece_clear (b : Board) (ep : Option Position) (tp : Option Piece) (f : Position) :
    ({ b with en_passant := ep, taken_piece := tp } : Board).get_piece f = b.get_piece f := rfl

/-- `record_en_passant` only writes the `en_passant` field. -/
theorem record_en_passant_white_rights (p : Piece) (f t : Position) (r : Board) :
    (Board.record_en_passant p f t r).white_castling_rights = r.white_castling_rights := by
  unfold Board.record_en_passant
  split <;> rfl

/-- Black analogue of `record_en_passant_white_rights`. -/
theorem record_en_passant_black_rights (p : Piece) (f t : Position) (r : Board) :
    (Board.record_en_passant p f t r).black_castling_rights = r.black_castling_rights := by
  unfold Board.record_en_passant
  split <;> rfl

/-- `record_taken_piece` only writes the `taken_piece` field. -/
theorem record_taken_piece_white_rights (t : Position) (r : Board) :
    (Board.record_taken_piece t r).white_castling_rights = r.white_castling_rights := by
  unfold Board.record_taken_piece
  split <;> rfl

/-- Black analogue of `record_taken_piece_white_rights`. -/
theorem record_taken_piece_black_rights (t : Position) (r : Board) :
    (Board.record_taken_piece t r).black_castling_rights = r.black_castling_rights := by
  unfold Board.record_taken_piece
  split <;> rfl

/-- `update_castling_rights` only ever disables rights: each right that is
`false` beforehand is `false` afterwards. -/
theorem update_castling_rights_mono (p : Piece) (r : Board) :
    (r.white_castling_rights.kingside = false →
        (Board.update_castling_rights p r).white_castling_rights.kingside = false)
      ∧ (r.white_castling_rights.queenside = false →
          (Board.update_castling_rights p r).white_castling_rights.queenside = false)
      ∧ (r.black_castling_rights.kingside = false →
          (Board.update_castling_rights p r).black_castling_rights.kingside = false)
      ∧ (r.black_castling_rights.queenside = false →
          (Board.update_castling_rights p r).black_castling_rights.queenside = false) := by
  unfold Board.update_castling_rights
  repeat' split
  all_goals refine ⟨?_, ?_, ?_, ?_⟩
  all_goals intro h
  all_goals try dsimp only [CastlingRights.disable_all, CastlingRights.disable_kingside,
    CastlingRights.disable_queenside]
  all_goals assumption

/-- `Board::move_piece` never re-enables a castling right: each of the four
rights, once `false`, is still `false` after the move. -/
theorem move_piece_rights_mono (b : Board) (f t : Position) :
    (b.white_castling_rights.kingside = false →
        (b.move_piece f t).white_castling_rights.kingside = false)
      ∧ (b.white_castling_rights.queenside = false →
          (b.move_piece f t).white_castling_rights.queenside = false)
      ∧ (b.black_castling_rights.kingside = false →
          (b.move_piece f t).black_castling_rights.kingside = false)
      ∧ (b.black_castling_rights.queenside = false →
          (b.move_piece f t).black_castling_rights.queenside = false) := by
  rcases hgp : b.get_piece f with _ | piece
  · simp only [Board.move_piece, get_piece_clear, hgp]
    split
    · exact ⟨fun h => h, fun h => h, fun h => h, fun h => h⟩
    · exact ⟨fun h => h, fun h => h, fun h => h, fun h => h⟩
  · simp only [Board.move_piece, get_piece_clear, hgp]
    split
    · exact ⟨fun h => h, fun h => h, fun h => h, fun h => h⟩
    · have hmono := update_castling_rights_mono piece
        ((Board.record_taken_piece t
            (Board.record_en_passant piece f t
              (({ b with en_passant := none, taken_piece := none } : Board).set_square f
                Square.empty))).add_piece (piece.move_to t))
      refine ⟨fun h => ?_, fun h => ?_, fun h => ?_, fun h => ?_⟩
      · refine hmono.1 ?_
        rw [show ∀ r : Board, (r.add_piece (piece.move_to t)).white_castling_rights
            = r.white_castling_rights from fun _ => rfl,
          record_taken_piece_white_rights, record_en_passant_white_rights]
        exact h
      · refine hmono.2.1 ?_
        rw [show ∀ r : Board, (r.add_piece (piece.move_to t)).white_castling_rights
            = r.white_castling_rights from fun _ => rfl,
          record_taken_piece_white_rights, record_en_passant_white_rights]
        exact h
      · refine hmono.2.2.1 ?_
        rw [show ∀ r : Board, (r.add_piece (piece.move_to t)).black_castling_rights
            = r.black_castling_rights from fun _ => rfl,
          record_taken_piece_black_rights, record_en_passant_black_rights]
        exact h
      · refine hmono.2.2.2 ?_
        rw [show ∀ r : Board, (r.add_piece (piece.move_to t)).black_castling_rights
            = r.black_castling_rights from fun _ => rfl,
          record_taken_piece_black_rights, record_en_passant_black_rights]
        exact h

/-- The en-passant vacating step of `apply_piece_move` only touches the
squares, so the castling rights are those computed by `move_piece`. -/
theorem apply_piece_move_white_rights (b : Board) (f t : Position) :
    (b.apply_piece_move f t).white_castling_rights
      = (b.move_piece f t).white_castling_rights := by
  simp only [Board.apply_piece_move]
  repeat' split
  all_goals rfl

/-- Black analogue of `apply_piece_move_white_rights`. -/
theorem apply_piece_move_black_rights (b : Board) (f t : Position) :
    (b.apply_piece_move f t).black_castling_rights
      = (b.move_piece f t).black_castling_rights := by
  simp only [Board.apply_piece_move]
  repeat' split
  all_goals rfl

/-- C9: castling rights are monotone under `apply_move`: a side's kingside
(resp. queenside) right that is already `false` in `b` is still `false` in
`b.apply_move m`, for every move `m` — the move-application surface only
ever disables rights, never re-enables them. -/
theorem C9_castling_rights_monotone (b : Board) (m : Move) :
    (b.white_castling_rights.kingside = false →
        (b.apply_move m).white_castling_rights.kingside = false)
      ∧ (b.white_castling_rights.queenside = false →
          (b.apply_move m).white_castling_rights.queenside = false)
      ∧ (b.black_castling_rights.kingside = false →
          (b.apply_move m).black_castling_rights.kingside = false)
      ∧ (b.black_castling_rights.queenside = false →
          (b.apply_move m).black_castling_rights.queenside = false) := by
  cases m with
  | Resign => exact ⟨fun h => h, fun h => h, fun h => h, fun h => h⟩
  | Piece f t =>
    have h1 := move_piece_rights_mono b f t
    refine ⟨fun h => ?_, fun h => ?_, fun h => ?_, fun h => ?_⟩
    · show (b.apply_piece_move f t).white_castling_rights.kingside = false
      rw [apply_piece_move_white_rights]
      exact h1.1 h
    · show (b.apply_piece_move f t).white_castling_rights.queenside = false
      rw [apply_piece_move_white_rights]
      exact h1.2.1 h
    · show (b.apply_piece_move f t).black_castling_rights.kingside = false
      rw [apply_piece_move_black_rights]
      exact h1.2.2.1 h
    · show (b.apply_piece_move f t).black_castling_rights.queenside = false
      rw [apply_piece_move_black_rights]
      exact h1.2.2.2 h
  | KingSideCastle =>
    simp only [Board.apply_move, Board.apply_kingside_castle]
    rcases hk : b.get_king_pos b.turn with _ | kp
    · exact ⟨fun h => h, fun h => h, fun h => h, fun h => h⟩
    · refine ⟨?_, ?_, ?_, ?_⟩ <;> intro h
      · exact (move_piece_rights_mono _ _ _).1 ((move_piece_rights_mono _ _ _).1 h)
      · exact (move_piece_rights_mono _ _ _).2.1 ((move_piece_rights_mono _ _ _).2.1 h)
      · exact (move_piece_rights_mono _ _ _).2.2.1 ((move_piece_rights_mono _ _ _).2.2.1 h)
      · exact (move_piece_rights_mono _ _ _).2.2.2 ((move_piece_rights_mono _ _ _).2.2.2 h)
  | QueenSideCastle =>
    simp only [Board.apply_move, Board.apply_queenside_castle]
    rcases hk : b.get_king_pos b.turn with _ | kp
    · exact ⟨fun h => h, fun h => h, fun h => h, fun h => h⟩
    · refine ⟨?_, ?_, ?_, ?_⟩ <;> intro h
      · exact (move_piece_rights_mono _ _ _).1 ((move_piece_rights_mono _ _ _).1 h)
      · exact (move_piece_rights_mono _ _ _).2.1 ((move_piece_rights_mono _ _ _).2.1 h)
      · exact (move_piece_rights_mono _ _ _).2.2.1 ((move_piece_rights_mono _ _ _).2.2.1 h)
      · exact (move_piece_rights_mono _ _ _).2.2.2 ((move_piece_rights_mono _ _ _).2.2.2 h)

/-- Witness for C9: a board whose White kingside right is already lost keeps
it lost after a (resign) move application. -/
theorem C9_witness :
    board_no_ks.white_castling_rights.kingside = false
      ∧ (board_no_ks.apply_move Move.Resign).white_castling_rights.kingside = false :=
  ⟨by decide, (C9_castling_rights_monotone board_no_ks Move.Resign).1 (by decide)⟩

-- # Claim C2: the castling eligibility conditions

/-- Counterexample to C2: on `board_qs` (white king e1, white rook a1, black
rook c8) the code grants White's queenside castle even though c1 — a square
the king crosses and lands on — is threatened, so the claimed "d- and
c-file squares unthreatened" conjunction does not characterise
`can_queenside_castle`. -/
theorem C2_counterexample :
    board_qs.can_queenside_castle WHITE = true
      ∧ board_qs.is_threatened C1 WHITE = true := by
  decide

/-- C2 (amended): `can_kingside_castle` holds iff the two squares between
king and rook are empty, the exact kingside rook is on its corner, the
kingside right is set, the king is not in check, and the f- and g-file
squares are unthreatened; `can_queenside_castle` holds iff the three
intervening squares are empty, the exact queenside rook is present, the
queenside right is set, the king is not in check, and ONLY the d-file
square is unthreatened (the code never tests the c-file landing square). -/
theorem C2_castling_conditions (b : Board) :
    (b.can_kingside_castle WHITE = true ↔
      (b.has_no_piece (Position.new 0 5) = true ∧ b.has_no_piece (Position.new 0 6) = true
        ∧ b.get_piece (Position.new 0 7) = some (Piece.Rook WHITE (Position.new 0 7))
        ∧ b.white_castling_rights.kingside = true
        ∧ b.is_in_check WHITE = false
        ∧ b.is_threatened (Position.new 0 5) WHITE = false
        ∧ b.is_threatened (Position.new 0 6) WHITE = false))
    ∧ (b.can_kingside_castle BLACK = true ↔
      (b.has_no_piece (Position.new 7 5) = true ∧ b.has_no_piece (Position.new 7 6) = true
        ∧ b.get_piece (Position.new 7 7) = some (Piece.Rook BLACK (Position.new 7 7))
        ∧ b.black_castling_rights.kingside = true
        ∧ b.is_in_check BLACK = false
        ∧ b.is_threatened (Position.new 7 5) BLACK = false
        ∧ b.is_threatened (Position.new 7 6) BLACK = false))
    ∧ (b.can_queenside_castle WHITE = true ↔
      (b.has_no_piece (Position.new 0 1) = true ∧ b.has_no_piece (Position.new 0 2) = true
        ∧ b.has_no_piece (Position.new 0 3) = true
        ∧ b.get_piece (Position.new 0 0) = some (Piece.Rook WHITE (Position.new 0 0))
        ∧ b.white_castling_rights.queenside = true
        ∧ b.is_in_check WHITE = false
        ∧ b.is_threatened (Position.new 0 3) WHITE = false))
    ∧ (b.can_queenside_castle BLACK = true ↔
      (b.has_no_piece (Position.new 7 1) = true ∧ b.has_no_piece (Position.new 7 2) = true
        ∧ b.has_no_piece (Position.new 7 3) = true
        ∧ b.get_piece (Position.new 7 0) = some (Piece.Rook BLACK (Position.new 7 0))
        ∧ b.black_castling_rights.queenside = true
        ∧ b.is_in_check BLACK = false
        ∧ b.is_threatened (Position.new 7 3) BLACK = false)) := by
  refine ⟨?_, ?_, ?_, ?_⟩ <;>
    simp [Board.can_kingside_castle, Board.can_queenside_castle,
      Position.king_pos, Position.queen_pos, Position.next_right, Position.new,
      CastlingRights.can_kingside_castle, CastlingRights.can_queenside_castle,
      Bool.and_eq_true, Bool.not_eq_true', and_assoc]

/-- Witness for C2 (amended): the queenside characterisation applied on
`board_qs`, whose seven conditions hold concretely. -/
theorem C2_witness : board_qs.can_queenside_castle WHITE = true :=
  (C2_castling_conditions board_qs).2.2.1.mpr (by decide)

-- # Claim C7: en-passant bookkeeping of piece-move application

/-- `update_castling_rights` does not touch the `en_passant` field. -/
theorem update_castling_rights_en_passant (p : Piece) (r : Board) :
    (Board.update_castling_rights p r).en_passant = r.en_passant := by
  unfold Board.update_castling_rights
  repeat' split
  all_goals rfl

/-- `record_taken_piece` does not touch the `en_passant` field. -/
theorem record_taken_piece_en_passant (t : Position) (r : Board) :
    (Board.record_taken_piece t r).en_passant = r.en_passant := by
  unfold Board.record_taken_piece
  split <;> rfl

/-- The `en_passant` value written by `record_en_passant`. -/
theorem record_en_passant_en_passant (p : Piece) (f t : Position) (r : Board) :
    (Board.record_en_passant p f t r).en_passant
      = if (p.is_starting_pawn && (f.get_row - t.get_row).natAbs = 2) = true
          then some (t.pawn_back p.get_color) else r.en_passant := by
  unfold Board.record_en_passant
  split <;> simp_all

/-- The en-passant vacating step of `apply_piece_move` only rewrites a
square, so the resulting `en_passant` field is the one from `move_piece`. -/
theorem apply_piece_move_en_passant_eq (b : Board) (f t : Position) :
    (b.apply_piece_move f t).en_passant = (b.move_piece f t).en_passant := by
  simp only [Board.apply_piece_move]
  repeat' split
  all_goals rfl

/-- `Board::move_piece` sets `en_passant` to `Some e` exactly for an
on-board move of a stored starting pawn over two rows, with `e` the square
behind the destination. -/
theorem move_piece_en_passant_iff (b : Board) (f t e : Position) :
    (b.move_piece f t).en_passant = some e ↔
      (f.is_on_board = true ∧ t.is_on_board = true
        ∧ ∃ p, b.get_piece f = some p ∧ p.is_starting_pawn = true
            ∧ (f.get_row - t.get_row).natAbs = 2 ∧ e = t.pawn_back p.get_color) := by
  rcases hgp : b.get_piece f with _ | p
  · simp only [Board.move_piece, get_piece_clear, hgp]
    split <;> simp [hgp]
  · simp only [Board.move_piece, get_piece_clear, hgp]
    split
    · rename_i hoff
      constructor
      · intro h
        exact absurd h (by simp)
      · rintro ⟨h1, h2, -⟩
        rw [Bool.or_eq_true] at hoff
        rcases hoff with h | h
        · simp [Position.is_on_board, h] at h1
        · simp [Position.is_on_board, h] at h2
    · rename_i hoff
      rw [Bool.or_eq_true, not_or] at hoff
      have hf : f.is_on_board = true := by
        simp [Position.is_on_board, eq_false_of_ne_true hoff.1]
      have ht : t.is_on_board = true := by
        simp [Position.is_on_board, eq_false_of_ne_true hoff.2]
      rw [update_castling_rights_en_passant,
        show ∀ (r : Board) (q : Piece), (r.add_piece q).en_passant = r.en_passant
          from fun _ _ => rfl,
        record_taken_piece_en_passant, record_en_passant_en_passant]
      split
      · rename_i hc
        rw [Bool.and_eq_true, decide_eq_true_eq] at hc
        simp only [Option.some.injEq, hf, ht, true_and]
        constructor
        · intro he
          exact ⟨p, rfl, hc.1, hc.2, he.symm⟩
        · rintro ⟨p', hp', -, -, he⟩
          rw [he, hp']
      · rename_i hc
        constructor
        · intro h
          exact absurd h (by simp [Board.set_square])
        · rintro ⟨-, -, p', hp', hsp, hd, -⟩
          injection hp' with hp'
          subst hp'
          exact absurd (by rw [Bool.and_eq_true, decide_eq_true_eq]; exact ⟨hsp, hd⟩) hc

/-- Setting a list entry to `Square.empty` and reading the same index back
(with `Square.empty` as the out-of-range default) always yields
`Square.empty`. -/
theorem getD_set_empty : ∀ (l : List Square) (i : Nat),
    (l.set i Square.empty).getD i Square.empty = Square.empty
  | [], _ => by simp [List.getD]
  | _ :: _, 0 => rfl
  | s :: l, i + 1 => by simpa [List.getD] using getD_set_empty l i

/-- `pawn_back` changes only the row. -/
theorem pawn_back_col (p : Position) (c : Color) : (p.pawn_back c).get_col = p.get_col := by
  cases c <;> rfl

/-- When a pawn consumes the board's en-passant target, `apply_piece_move`
vacates the square behind the en-passant square (where the captured pawn
stands), which is not the destination square. -/
theorem apply_piece_move_vacates (b : Board) (f ep : Position) (c : Color) (pp : Position)
    (hep : b.en_passant = some ep)
    (hgp : b.get_piece f = some (Piece.Pawn c pp))
    (halign : ep = (f.pawn_up c).next_left ∨ ep = (f.pawn_up c).next_right) :
    (b.apply_piece_move f ep).get_piece (ep.pawn_back c) = none := by
  simp only [Board.apply_piece_move, hep, hgp]
  rw [if_pos]
  · unfold Board.get_piece
    split
    · rfl
    · have hidx : ((7 - (ep.pawn_back c).get_row) * 8 + ep.get_col).toNat
          = Board.square_index (ep.pawn_back c) := by
        rw [Board.square_index, ← pawn_back_col ep c]
        rfl
      dsimp only
      rw [hidx, getD_set_empty]
      rfl
  · rcases halign with h | h <;> simp [h]

/-- C7: after `apply_piece_move(from, to)`, the `en_passant` field is
`Some(square behind to from the mover's perspective)` if and only if the
moved piece was a pawn on its starting rank pushed two rows (and is `None`
after every other piece-move application); and a pawn move consuming the
previous board's en-passant square vacates the captured pawn's square
behind it. -/
theorem C7_en_passant_bookkeeping :
    (∀ (b : Board) (f t e : Position),
        (b.apply_piece_move f t).en_passant = some e ↔
          (f.is_on_board = true ∧ t.is_on_board = true
            ∧ ∃ p, b.get_piece f = some p ∧ p.is_starting_pawn = true
                ∧ (f.get_row - t.get_row).natAbs = 2 ∧ e = t.pawn_back p.get_color))
      ∧ (∀ (b : Board) (f ep : Position) (c : Color) (pp : Position),
          b.en_passant = some ep →
          b.get_piece f = some (Piece.Pawn c pp) →
          (ep = (f.pawn_up c).next_left ∨ ep = (f.pawn_up c).next_right) →
          (b.apply_piece_move f ep).get_piece (ep.pawn_back c) = none) :=
  ⟨fun b f t e => by
      rw [apply_piece_move_en_passant_eq]
      exact move_piece_en_passant_iff b f t e,
    apply_piece_move_vacates⟩

/-- Witness for C7: the double push e2e4 records e3, and the en-passant
capture f5xe6 vacates e5. -/
theorem C7_witness :
    (board_pawn_e2.apply_piece_move E2 E4).en_passant = some E3
      ∧ (board_pawn_ep.apply_piece_move F5 E6).get_piece E5 = none :=
  ⟨(C7_en_passant_bookkeeping.1 board_pawn_e2 E2 E4 E3).mpr
      ⟨by decide, by decide, Piece.Pawn WHITE E2, by decide, by decide, by decide, by decide⟩,
    by
      have h := C7_en_passant_bookkeeping.2 board_pawn_ep F5 E6 WHITE F5 rfl (by decide)
        (Or.inl (by decide))
      rwa [show E6.pawn_back WHITE = E5 from by decide] at h⟩

-- # Claim C6: promotion protocol, panics, and promote's effect

/-- Reading back a just-written index that is within bounds returns the
written element. -/
theorem getD_set_of_lt : ∀ (l : List Square) (i : Nat) (x d : Square),
    i < l.length → (l.set i x).getD i d = x
  | [], _, _, _, h => absurd h (by simp)
  | _ :: _, 0, _, _, _ => rfl
  | _ :: l, i + 1, x, d, h => by
    simpa [List.getD] using getD_set_of_lt l i x d (by simpa using h)

/-- The Rust array index of an on-board position is below 64. -/
theorem square_index_lt (p : Position) (h : p.is_on_board = true) :
    Board.square_index p < 64 := by
  rw [Position.is_on_board, Bool.not_eq_true'] at h
  rw [Position.is_off_board] at h
  simp only [Bool.or_eq_false_iff, decide_eq_false_iff_not, not_lt] at h
  unfold Board.square_index
  omega

/-- On a 64-square board, a piece written by `add_piece` on an on-board
position is read back by `get_piece`. -/
theorem get_piece_add_piece (b : Board) (p : Piece)
    (hon : p.get_pos.is_on_board = true) (hlen : b.squares.length = 64) :
    (b.add_piece p).get_piece p.get_pos = some p := by
  unfold Board.add_piece Board.set_square Board.get_piece
  rw [if_neg (by rw [Position.is_on_board, Bool.not_eq_true'] at hon; simp [hon])]
  rw [getD_set_of_lt _ _ _ _ (by rw [hlen]; exact square_index_lt _ hon)]
  rfl

/-- C6: `play_move` aborts (returns `none`, the model of the Rust panic)
exactly when a promotion is pending, and `promote` aborts exactly when none
is; a non-Resign move that fails the legality filter yields
`IllegalMove(m)` (the board itself, a pure value, is untouched); and a
successful `promote` on pending square `pos` yields the board with the pawn
at `pos` replaced by the chosen piece kind in the mover's color, the
pending-promotion flag cleared, and the turn advanced. -/
theorem C6_promotion_protocol :
    (∀ (b : Board) (m : Move), b.play_move m = none ↔ b.promotion ≠ none)
      ∧ (∀ (b : Board) (k : Promotion), b.promote k = none ↔ b.promotion = none)
      ∧ (∀ (b : Board) (m : Move) (r : MoveResult),
          b.play_move m = some r → m ≠ Move.Resign →
          b.is_legal_move m b.get_turn = false → r = MoveResult.IllegalMove m)
      ∧ (∀ (b : Board) (k : Promotion) (pos : Position),
          b.promotion = some pos → pos.is_on_board = true → b.squares.length = 64 →
          ∃ b', b.promote k = some b'
            ∧ b'.get_piece pos = some (match k with
                | Promotion.Bishop => Piece.Bishop b.get_turn pos
                | Promotion.Knight => Piece.Knight b.get_turn pos
                | Promotion.Queen => Piece.Queen b.get_turn pos
                | Promotion.Rook => Piece.Rook b.get_turn pos)
            ∧ b'.promotion = none ∧ b'.turn = b.get_turn.not) := by
  refine ⟨?_, ?_, ?_, ?_⟩
  · intro b m
    cases hb : b.promotion <;> simp [Board.play_move, hb]
  · intro b k
    cases hb : b.promotion <;> simp [Board.promote, hb]
  · intro b m r hr hm hleg
    cases hb : b.promotion with
    | some pos => simp [Board.play_move, hb] at hr
    | none =>
      simp only [Board.play_move, hb, Board.get_turn] at hr
      rw [if_neg (by simpa using hm), if_neg (by simp [Board.get_turn] at hleg; simp [hleg])]
        at hr
      exact (Option.some_inj.mp hr).symm
  · intro b k pos hb hon hlen
    refine ⟨_, by simp only [Board.promote, hb]; rfl, ?_, ?_, ?_⟩
    · show (((({ b with promotion := none } : Board)).add_piece _).change_turn).get_piece pos
        = _
      rw [show ∀ (x : Board) (q : Position), x.change_turn.get_piece q = x.get_piece q
        from fun _ _ => rfl]
      cases k <;>
        exact get_piece_add_piece _ _ hon hlen
    · cases k <;> rfl
    · cases k <;> rfl

/-- Witness for C6: promoting the pending e8 pawn of `board_pending` to a
queen succeeds with the advertised fields. -/
theorem C6_witness :
    board_pending.promotion = some E8
      ∧ ∃ b', board_pending.promote Promotion.Queen = some b'
          ∧ b'.get_piece E8 = some (Piece.Queen board_pending.get_turn E8)
          ∧ b'.promotion = none ∧ b'.turn = board_pending.get_turn.not :=
  ⟨rfl, C6_promotion_protocol.2.2.2 board_pending Promotion.Queen E8 rfl (by decide) (by decide)⟩

-- # Claim C4: the play_move state machine

/-- `record_en_passant` does not touch `promotion` or `turn`. -/
theorem record_en_passant_promotion (p : Piece) (f t : Position) (r : Board) :
    (Board.record_en_passant p f t r).promotion = r.promotion := by
  unfold Board.record_en_passant
  split <;> rfl

/-- `record_taken_piece` does not touch `promotion` or `turn`. -/
theorem record_taken_piece_promotion (t : Position) (r : Board) :
    (Board.record_taken_piece t r).promotion = r.promotion := by
  unfold Board.record_taken_piece
  split <;> rfl

/-- `update_castling_rights` does not touch `promotion` or `turn`. -/
theorem update_castling_rights_promotion (p : Piece) (r : Board) :
    (Board.update_castling_rights p r).promotion = r.promotion := by
  unfold Board.update_castling_rights
  repeat' split
  all_goals rfl

/-- `move_piece` never changes the pending-promotion field. -/
theorem move_piece_promotion (b : Board) (f t : Position) :
    (b.move_piece f t).promotion = b.promotion := by
  rcases hgp : b.get_piece f with _ | p
  · simp only [Board.move_piece, get_piece_clear, hgp]
    split <;> rfl
  · simp only [Board.move_piece, get_piece_clear, hgp]
    split
    · rfl
    · rw [update_castling_rights_promotion,
        show ∀ (r : Board) (q : Piece), (r.add_piece q).promotion = r.promotion
          from fun _ _ => rfl,
        record_taken_piece_promotion, record_en_passant_promotion]
      rfl

/-- `apply_piece_move` never changes the pending-promotion field. -/
theorem apply_piece_move_promotion (b : Board) (f t : Position) :
    (b.apply_piece_move f t).promotion = b.promotion := by
  have h : (b.apply_piece_move f t).promotion = (b.move_piece f t).promotion := by
    simp only [Board.apply_piece_move]
    repeat' split
    all_goals rfl
  rw [h, move_piece_promotion]

/-- `apply_move` never changes the pending-promotion field. -/
theorem apply_move_promotion (b : Board) (m : Move) :
    (b.apply_move m).promotion = b.promotion := by
  cases m with
  | Resign => rfl
  | Piece f t => exact apply_piece_move_promotion b f t
  | KingSideCastle =>
    simp only [Board.apply_move, Board.apply_kingside_castle]
    rcases b.get_king_pos b.turn with _ | kp
    · rfl
    · rw [move_piece_promotion, move_piece_promotion]
  | QueenSideCastle =>
    simp only [Board.apply_move, Board.apply_queenside_castle]
    rcases b.get_king_pos b.turn with _ | kp
    · rfl
    · rw [move_piece_promotion, move_piece_promotion]

/-- Analogue of `record_en_passant_promotion` for the `turn` field. -/
theorem record_en_passant_turn (p : Piece) (f t : Position) (r : Board) :
    (Board.record_en_passant p f t r).turn = r.turn := by
  unfold Board.record_en_passant
  split <;> rfl

/-- Analogue of `record_taken_piece_promotion` for the `turn` field. -/
theorem record_taken_piece_turn (t : Position) (r : Board) :
    (Board.record_taken_piece t r).turn = r.turn := by
  unfold Board.record_taken_piece
  split <;> rfl

/-- Analogue of `update_castling_rights_promotion` for the `turn` field. -/
theorem update_castling_rights_turn (p : Piece) (r : Board) :
    (Board.update_castling_rights p r).turn = r.turn := by
  unfold Board.update_castling_rights
  repeat' split
  all_goals rfl

/-- `move_piece` never changes whose turn it is. -/
theorem move_piece_turn (b : Board) (f t : Position) :
    (b.move_piece f t).turn = b.turn := by
  rcases hgp : b.get_piece f with _ | p
  · simp only [Board.move_piece, get_piece_clear, hgp]
    split <;> rfl
  · simp only [Board.move_piece, get_piece_clear, hgp]
    split
    · rfl
    · rw [update_castling_rights_turn,
        show ∀ (r : Board) (q : Piece), (r.add_piece q).turn = r.turn from fun _ _ => rfl,
        record_taken_piece_turn, record_en_passant_turn]
      rfl

/-- `apply_move` never changes whose turn it is (only `change_turn` does). -/
theorem apply_move_turn (b : Board) (m : Move) :
    (b.apply_move m).turn = b.turn := by
  cases m with
  | Resign => rfl
  | Piece f t =>
    have h : (b.apply_piece_move f t).turn = (b.move_piece f t).turn := by
      simp only [Board.apply_piece_move]
      repeat' split
      all_goals rfl
    show (b.apply_piece_move f t).turn = b.turn
    rw [h, move_piece_turn]
  | KingSideCastle =>
    simp only [Board.apply_move, Board.apply_kingside_castle]
    rcases b.get_king_pos b.turn with _ | kp
    · rfl
    · rw [move_piece_turn, move_piece_turn]
  | QueenSideCastle =>
    simp only [Board.apply_move, Board.apply_queenside_castle]
    rcases b.get_king_pos b.turn with _ | kp
    · rfl
    · rw [move_piece_turn, move_piece_turn]

/-- A board whose `promotion` field is already `none` is unchanged by
re-writing it to `none`. -/
theorem board_set_promotion_none (b : Board) (h : b.promotion = none) :
    ({ b with promotion := none } : Board) = b := by
  cases b
  simp_all

/-- If no promoting pawn is found (and none was pending),
`check_available_pawn_promotion` is the identity. -/
theorem check_available_eq_self (b : Board) (h1 : b.promotion = none)
    (h2 : b.check_available_pawn_promotion.promotion = none) :
    b.check_available_pawn_promotion = b := by
  unfold Board.check_available_pawn_promotion at h2 ⊢
  dsimp only at h2
  rw [h2]
  exact board_set_promotion_none b h1

/-- C4: for a board with no pending promotion, `play_move` returns exactly
the result described by the claim — Resign ⇒ victory of the opponent;
illegal ⇒ `IllegalMove`; otherwise apply the move and test, in order,
opponent checkmate (⇒ victory of the mover), opponent stalemate
(⇒ `Stalemate`), pending back-rank pawn (⇒ `Promote` with the turn NOT yet
advanced), else `Continuing` with the turn flipped. -/
theorem C4_play_move_spec (b : Board) (m : Move) (h : b.promotion = none) :
    b.play_move m = some (play_move_claim b m)
      ∧ (∀ (b2 : Board) (sq : Position),
          play_move_claim b m = MoveResult.Promote b2 sq → b2.turn = b.get_turn) := by
  constructor
  · simp only [Board.play_move, h, play_move_claim, Board.get_turn]
    by_cases hm : m = Move.Resign
    · simp [hm]
    · simp only [hm, if_false, Bool.not_eq_true']
      by_cases hleg : b.is_legal_move m b.turn = true
      · simp only [hleg, if_true, if_false]
        by_cases hcm : ((b.apply_move m).change_turn).is_checkmate = true
        · simp [hcm]
        · simp only [Bool.not_eq_true] at hcm
          simp only [hcm, if_false, Bool.false_eq_true]
          by_cases hsm : ((b.apply_move m).change_turn).is_stalemate = true
          · simp [hsm]
          · simp only [Bool.not_eq_true] at hsm
            simp only [hsm, if_false, Bool.false_eq_true]
            rcases hscan : (b.apply_move m).check_available_pawn_promotion.promotion
              with _ | pos
            · rw [check_available_eq_self (b.apply_move m)
                (by rw [apply_move_promotion, h]) hscan]
              simp [hscan]
            · simp [hscan]
      · simp only [Bool.not_eq_true] at hleg
        simp [hleg]
  · intro b2 sq hp
    unfold play_move_claim at hp
    split at hp
    · exact absurd hp (by simp)
    · split at hp
      · exact absurd hp (by simp)
      · split at hp
        · exact absurd hp (by simp)
        · split at hp
          · exact absurd hp (by simp)
          · split at hp
            · injection hp with hb2 hsq
              rw [← hb2]
              show (b.apply_move m).check_available_pawn_promotion.turn = b.turn
              rw [show ∀ x : Board, x.check_available_pawn_promotion.turn = x.turn
                from fun _ => rfl, apply_move_turn]
            · exact absurd hp (by simp)

/-- Witness for C4: a resignation on the lone-king board. -/
theorem C4_witness :
    board_lone_king.promotion = none
      ∧ board_lone_king.play_move Move.Resign
          = some (play_move_claim board_lone_king Move.Resign) :=
  ⟨rfl, (C4_play_move_spec board_lone_king Move.Resign rfl).1⟩

-- # Claim C5: stalemate and insufficient material

/-- On a list sorted by the derived piece order (kinds ascending), the
code's index patterns coincide with the spec's count-based description of
the insufficient-material sets, plus the empty list. -/
theorem insufficient_pattern_sorted (s : List Piece) (hs : List.Sorted piece_le s) :
    Board.insufficient_pattern s = (s.isEmpty || insufficient_material_claim s) := by
  match s with
  | [] => rfl
  | [a] =>
    cases a <;>
      simp [Board.insufficient_pattern, insufficient_material_claim,
        List.countP_cons, Piece.is_king, Piece.is_bishop, Piece.is_knight]
  | [a, b] =>
    rw [List.sorted_cons] at hs
    have hab : piece_le a b := hs.1 b (by simp)
    cases a <;> cases b <;>
      simp_all [Board.insufficient_pattern, insufficient_material_claim,
        List.countP_cons, Piece.is_king, Piece.is_bishop, Piece.is_knight,
        piece_le, Piece.sort_key, Piece.kind_index, Prod.Lex.le_iff]
  | [a, b, c] =>
    rw [List.sorted_cons] at hs
    have hab : piece_le a b := hs.1 b (by simp)
    have hac : piece_le a c := hs.1 c (by simp)
    have hbc : piece_le b c := by
      have := hs.2
      rw [List.sorted_cons] at this
      exact this.1 c (by simp)
    cases a <;> cases b <;> cases c <;>
      simp_all [Board.insufficient_pattern, insufficient_material_claim,
        List.countP_cons, Piece.is_king, Piece.is_bishop, Piece.is_knight,
        piece_le, Piece.sort_key, Piece.kind_index, Prod.Lex.le_iff]
  | a :: b :: c :: d :: rest =>
    simp [Board.insufficient_pattern, insufficient_material_claim]

/-- The spec-side insufficiency predicate only depends on length and kind
counts, so it transfers along permutations. -/
theorem insufficient_material_claim_perm {l₁ l₂ : List Piece} (h : l₁.Perm l₂) :
    insufficient_material_claim l₁ = insufficient_material_claim l₂ := by
  unfold insufficient_material_claim
  rw [h.length_eq, h.countP_eq, h.countP_eq, h.countP_eq]

/-- `isEmpty` transfers along permutations. -/
theorem isEmpty_perm {l₁ l₂ : List Piece} (h : l₁.Perm l₂) :
    l₁.isEmpty = l₂.isEmpty := by
  have := h.length_eq
  cases l₁ <;> cases l₂ <;> simp_all

/-- The code's `has_insufficient_material` coincides with the amended
spec-side description (the five claimed sets plus the empty list). -/
theorem has_insufficient_material_eq (b : Board) (c : Color) :
    b.has_insufficient_material c
      = insufficient_material_amended (b.get_player_pieces c) := by
  unfold Board.has_insufficient_material Board.has_sufficient_material sort_pieces
  rw [Bool.not_not]
  have hperm : (List.insertionSort piece_le (b.get_player_pieces c)).Perm
      (b.get_player_pieces c) :=
    List.perm_insertionSort _ _
  rw [insufficient_pattern_sorted _ (List.sorted_insertionSort _ _),
    insufficient_material_amended]
  rw [isEmpty_perm hperm, insufficient_material_claim_perm hperm]

/-- Counterexample to C5: a lone white king versus an empty Black side.
The code reports stalemate (it counts Black's empty piece list as
insufficient material), but the claim's right-hand side — with insufficiency
defined by exactly the five listed sets — is false, since White has eight
legal king moves and Black's material (the empty set) is not among the
listed sets. -/
theorem C5_counterexample :
    board_lone_king.is_stalemate = true
      ∧ is_stalemate_claim board_lone_king = false := by
  decide

/-- C5 (amended): `is_stalemate` holds iff the current player has no legal
moves and is not in check, or both players' material is insufficient, where
insufficiency is one of the five claimed sets OR the empty piece list. -/
theorem C5_stalemate_iff (b : Board) :
    b.is_stalemate = true ↔
      ((b.get_legal_moves b.get_turn = [] ∧ b.is_in_check b.get_turn = false)
        ∨ (insufficient_material_amended (b.get_player_pieces b.turn) = true
            ∧ insufficient_material_amended (b.get_player_pieces b.turn.not) = true)) := by
  unfold Board.is_stalemate
  rw [Bool.or_eq_true, Bool.and_eq_true, Bool.and_eq_true,
    has_insufficient_material_eq, has_insufficient_material_eq]
  simp [List.isEmpty_iff, Board.get_turn]

/-- Witness for C5 (amended): the lone-king board is a stalemate through the
amended insufficient-material disjunct. -/
theorem C5_witness :
    (board_lone_king.get_legal_moves board_lone_king.get_turn = []
        ∧ board_lone_king.is_in_check board_lone_king.get_turn = false)
      ∨ (insufficient_material_amended
            (board_lone_king.get_player_pieces board_lone_king.turn) = true
          ∧ insufficient_material_amended
              (board_lone_king.get_player_pieces board_lone_king.turn.not) = true) :=
  (C5_stalemate_iff board_lone_king).mp (by decide)
